import Mathlib

/-!
Verification of the joss-dataset collection-and-normalization pipeline.

This file gives a shallow embedding of the three Python source files

  * `src/ingest/github_issues.py`     (the Collector)
  * `src/transform/normalize_joss_submissions.py` (the Normalizer)
  * `src/analysis/issues_per_year.py` (the Aggregator/Reporter)

and proves properties of that embedding.  JSON values are modelled by an
inductive type, the file system by association lists keyed by file name,
and the HTTP transport by explicit response values / page functions.
Machine integers do not occur (Python integers are unbounded), so `Int`
and `Nat` are used directly.  Fallible code returns `Option`/`Except`.
-/

/-- A JSON value as decoded by Python's `json.loads`.  The fields used by
this program are objects, arrays, strings, integers, booleans and null;
floating point numbers never occur in the fields the pipeline reads. -/
inductive JsonVal where
  | null
  | bool (b : Bool)
  | int (n : Int)
  | str (s : String)
  | arr (elems : List JsonVal)
  | obj (fields : List (String × JsonVal))

/-- A decoded JSON object (Python `dict[str, object]`); keys are unique in
objects produced by `json.loads`, and lookup takes the first match. -/
abbrev JsonObject := List (String × JsonVal)

/-- Python `d.get(key)`: the value stored under `key`, or `None`. -/
def jLookup : JsonObject → String → Option JsonVal
  | [], _ => none
  | (k, v) :: rest, key => if k = key then some v else jLookup rest key

/-- A value that passes Python's `isinstance(x, int)` check on decoded
JSON: a genuine `int`, or a `bool` (`bool` is a subclass of `int` in
Python, so `True`/`False` pass the check while remaining booleans — they
compare equal to 1/0 but render as `True`/`False`). -/
inductive PyInt where
  | int (n : Int)
  | bool (b : Bool)
deriving DecidableEq

/-- The integer value of a Python int, as used by `==`, arithmetic and
`datetime.fromtimestamp` (`True == 1`, `False == 0`). -/
def PyInt.toInt : PyInt → Int
  | .int n => n
  | .bool b => if b then 1 else 0

/-- Python `isinstance(x, int)` on a decoded JSON value, returning the
value itself (still typed: a `True` stays a `bool`); everything else
fails the check. -/
def asPyNumber : Option JsonVal → Option PyInt
  | some (.int n) => some (.int n)
  | some (.bool b) => some (.bool b)
  | _ => none

/-- Python `isinstance(x, int)` followed by use of the integer value
(`bool` counts as 1/0 there). -/
def asPyInt : Option JsonVal → Option Int
  | some (.int n) => some n
  | some (.bool b) => some (if b then 1 else 0)
  | _ => none

/-! ### Decimal rendering of integers (Python f-string `f"issue_{number}.json"`) -/

/-- Little-endian decimal digits of `n`; the first argument is fuel
(`natDigits` supplies `n` itself, which is enough). -/
def natDigitsAux : Nat → Nat → List Nat
  | 0, _ => []
  | fuel + 1, n => if n = 0 then [] else n % 10 :: natDigitsAux fuel (n / 10)

/-- Little-endian decimal digits of `n` (empty for 0). -/
def natDigits (n : Nat) : List Nat := natDigitsAux n n

/-- Decimal rendering of a natural number, exactly as Python's `str`. -/
def natDecimal (n : Nat) : String :=
  if n = 0 then "0" else ⟨(natDigits n).reverse.map Nat.digitChar⟩

/-- Decimal rendering of an integer, exactly as Python's `str`. -/
def intDecimal : Int → String
  | .ofNat n => natDecimal n
  | .negSucc n => "-" ++ natDecimal (n + 1)

/-- The value of a little-endian digit list (used to prove that decimal
rendering is injective). -/
def undigits : List Nat → Nat
  | [] => 0
  | d :: ds => d + 10 * undigits ds

/-- Python `str` on a value that passed `isinstance(x, int)`: decimal
digits for an `int`, but `True`/`False` for a `bool` (an f-string renders
the object, not its integer value). -/
def PyInt.str : PyInt → String
  | .int n => intDecimal n
  | .bool b => if b then "True" else "False"

/-- The on-disk file name the Collector uses for an issue number
(`github_issues.py` line 309: `out_dir / f"issue_{number}.json"`).  A
bool number (which passes `issue_number`'s `isinstance` check) is filed
under `issue_True.json` / `issue_False.json`. -/
def fileNameFor (p : PyInt) : String := "issue_" ++ PyInt.str p ++ ".json"

/-! ### Character-list string primitives

Python string comparison, slicing and substring tests are embedded as
operations on the character list of a `String` (Python compares strings
lexicographically by code point, which `Char.toNat` exposes). -/

/-- Is the first list a prefix of the second? -/
def listIsPre : List Char → List Char → Bool
  | [], _ => true
  | _ :: _, [] => false
  | a :: as, b :: bs => a == b && listIsPre as bs

/-- Does `needle` occur as a contiguous substring of the list? (Python
`needle in hay`.) -/
def listHasSub (needle : List Char) : List Char → Bool
  | [] => listIsPre needle []
  | c :: rest => listIsPre needle (c :: rest) || listHasSub needle rest

/-- Python `s.startswith(p)` / `Path.glob` literal prefix. -/
def strStarts (p s : String) : Bool := listIsPre p.data s.data

/-- Python `s.endswith(p)` / `Path.glob` literal suffix. -/
def strEnds (p s : String) : Bool := listIsPre p.data.reverse s.data.reverse

/-- Python string `<=` (lexicographic by code point). -/
def charListLe : List Char → List Char → Bool
  | [], _ => true
  | _ :: _, [] => false
  | a :: as, b :: bs =>
    if a.toNat < b.toNat then true
    else if b.toNat < a.toNat then false
    else charListLe as bs

/-- Python `s <= t` on strings. -/
def strLe (s t : String) : Bool := charListLe s.data t.data

/-- Python slicing `s[:n]` (`github_issues.py` line 234: `resp.text[:500]`). -/
def strTrunc (s : String) (n : Nat) : String := ⟨s.data.take n⟩

/-- The marker the Normalizer requires in an issue body
(`normalize_joss_submissions.py` line 103). -/
def markerChars : List Char := "<!--author-handle-->".data

/-- Python `"<!--author-handle-->" in body`. -/
def containsMarker (body : String) : Bool := listHasSub markerChars body.data

/-! ### Collector: HTTP layer (`github_issues.py`) -/

/-- A GitHub API response as observed by `fetch_issues_page`:
status code, the two rate-limit headers it inspects, the response text,
and the decoded JSON body (`some items` when `resp.json()` is a list of
objects, `none` otherwise). -/
structure HttpResponse where
  status : Nat
  rlRemaining : Option String
  rlReset : Option Int
  body : String
  jsonList : Option (List JsonObject)

/-- `sleep_until_reset` (`github_issues.py` lines 165-185).  Returns the
number of seconds slept (`max(0, reset_ts - now_ts) + 5`), or `none` when
the guard `status != 403 or remaining != "0" or reset is None` makes the
function return without sleeping. -/
def sleep_until_reset (resp : HttpResponse) (now : Int) : Option Int :=
  match resp.rlReset with
  | none => none
  | some resetTs =>
    if resp.status = 403 ∧ resp.rlRemaining = some "0" then
      some (max 0 (resetTs - now) + 5)
    else none

/-- The ways `fetch_issues_page` raises `RuntimeError`. -/
inductive FetchErr where
  | api (status : Nat) (bodyTrunc : String)
  | notAList

/-- Result of one `fetch_issues_page` call: the returned items or the
raised error, how long the call slept (if at all), and whether a second
GET for the same page was issued. -/
structure FetchOutcome where
  result : Except FetchErr (List JsonObject)
  slept : Option Int
  retried : Bool

/-- `fetch_issues_page` (`github_issues.py` lines 188-245).  `first` is
the response to the initial GET; `retry` is the response the transport
would give to the second GET for the same page, which the code issues
exactly when `first` is a 403 (lines 227-229), after calling
`sleep_until_reset` on `first`.  A non-200 final response raises with the
status and the first 500 characters of the body (lines 231-236); a 200
whose JSON payload is not a list raises (lines 240-243). -/
def fetch_issues_page (first retry : HttpResponse) (now : Int) : FetchOutcome :=
  let retried := first.status == 403
  let slept := if first.status = 403 then sleep_until_reset first now else none
  let resp := if first.status = 403 then retry else first
  if resp.status ≠ 200 then
    ⟨.error (.api resp.status (strTrunc resp.body 500)), slept, retried⟩
  else
    match resp.jsonList with
    | some items => ⟨.ok items, slept, retried⟩
    | none => ⟨.error .notAList, slept, retried⟩

/-! ### Collector: on-disk store and main loop -/

/-- The payload written for one issue (`github_issues.py` lines 314-319). -/
structure RawPayload where
  source : String
  repo : String
  fetched_at : String
  issue : JsonObject

/-- The output directory, as an association list from file name to file
content in creation order. -/
abbrev Store := List (String × RawPayload)

/-- `out_path.exists()` for the modelled directory. -/
def hasKey (s : Store) (k : String) : Bool := s.any (fun e => e.1 == k)

/-- `out_path.write_text(...)`: create the file, or replace the content
of the existing file of that name. -/
def storePut : Store → String → RawPayload → Store
  | [], k, v => [(k, v)]
  | (k', v') :: rest, k, v =>
    if k' = k then (k, v) :: rest else (k', v') :: storePut rest k v

/-- `issue_number` (`github_issues.py` lines 267-281): the `number` field
if it is an `int` (possibly a `bool`, which `isinstance` lets through),
else `None`.  The value is returned as is — a `True` stays a `bool`. -/
def issue_number (issue : JsonObject) : Option PyInt := asPyNumber (jLookup issue "number")

/-- `opened_by_login` (`github_issues.py` lines 248-264). -/
def opened_by_login (issue : JsonObject) (login : String) : Bool :=
  match jLookup issue "user" with
  | some (.obj user) =>
    match jLookup user "login" with
    | some (.str userLogin) => userLogin == login
    | _ => false
  | _ => false

/-- `write_issue_file` (`github_issues.py` lines 284-322).  Returns
`(written?, new directory state)`: `False` without touching the store
when the issue has no integer number or when the file exists and
`overwrite` is off; otherwise writes the provenance-wrapped payload. -/
def write_issue_file (issue : JsonObject) (repoFullName now : String) (overwrite : Bool)
    (s : Store) : Bool × Store :=
  match issue_number issue with
  | none => (false, s)
  | some n =>
    let outPath := fileNameFor n
    if hasKey s outPath && !overwrite then (false, s)
    else (true, storePut s outPath ⟨"github", repoFullName, now, issue⟩)

/-- Directory state plus the `total_written` counter of `main`
(`github_issues.py` lines 418, 440-448).  The purely-logged counters
`total_fetched`/`total_bot` are omitted. -/
structure CollectState where
  store : Store
  written : Nat

/-- The body of the inner write loop (`github_issues.py` lines 440-448):
write one issue and bump the written counter when the write happened. -/
def wStep (repoFullName now : String) (overwrite : Bool) (acc : CollectState)
    (i : JsonObject) : CollectState :=
  let r := write_issue_file i repoFullName now overwrite acc.store
  ⟨r.2, acc.written + (if r.1 then 1 else 0)⟩

/-- One iteration's body of the page loop (`github_issues.py` lines
436-448): filter the page to issues opened by `bot` and write each. -/
def writePage (issues : List JsonObject) (bot repoFullName now : String) (overwrite : Bool)
    (st : CollectState) : CollectState :=
  (issues.filter (fun i => opened_by_login i bot)).foldl (wStep repoFullName now overwrite) st

/-- `config.max_pages is not None and page >= config.max_pages`
(`github_issues.py` line 462). -/
def pageCeiling (maxPages : Option Nat) (page : Nat) : Bool :=
  match maxPages with
  | none => false
  | some m => decide (m ≤ page)

/-- The page loop of `main` (`github_issues.py` lines 423-466) against a
simulated paginated source `pages` (page numbers are 1-indexed, and each
fetch succeeds with the items `pages page`).  Returns the final state and
the number of pages fetched, or `none` if the fuel ran out before the
loop broke.  Break order follows the code: empty page (line 431), short
page (line 459), page ceiling (line 462). -/
def collectLoop (pages : Nat → List JsonObject) (perPage : Nat) (maxPages : Option Nat)
    (bot repoFullName now : String) (overwrite : Bool) :
    Nat → Nat → CollectState → Option (CollectState × Nat)
  | 0, _, _ => none
  | fuel + 1, page, st =>
    let issues := pages page
    if issues.isEmpty then some (st, 1)
    else
      let st' := writePage issues bot repoFullName now overwrite st
      if issues.length < perPage then some (st', 1)
      else if pageCeiling maxPages page then some (st', 1)
      else
        match collectLoop pages perPage maxPages bot repoFullName now overwrite fuel (page + 1) st' with
        | none => none
        | some (stFin, k) => some (stFin, k + 1)

/-- A remote source holding `items` in order, served in pages of
`perPage` (the standard paginated view of a fixed list). -/
def chunkPages (items : List JsonObject) (perPage : Nat) (page : Nat) : List JsonObject :=
  (items.drop ((page - 1) * perPage)).take perPage

/-! ### UTC calendar conversion (`issues_per_year.py`) -/

/-- `daysFromCivil y m d`: days from 1970-01-01 to the Gregorian date
`y-m-d` (Howard Hinnant's `days_from_civil`, the standard proleptic
Gregorian algorithm; this is how an ISO date maps to a UNIX day count). -/
def daysFromCivil (y m d : Int) : Int :=
  let yAdj := if m ≤ 2 then y - 1 else y
  let era := yAdj.fdiv 400
  let yoe := yAdj - era * 400
  let mp := if m ≤ 2 then m + 9 else m - 3
  let doy := (153 * mp + 2).fdiv 5 + d - 1
  let doe := yoe * 365 + yoe.fdiv 4 - yoe.fdiv 100 + doy
  era * 146097 + doe - 719468

/-- `_unix_to_year` (`issues_per_year.py` lines 31-43):
`datetime.fromtimestamp(ts, tz=timezone.utc).year`, i.e. the Gregorian
year of the UTC instant `ts` seconds after the epoch (`civil_from_days`
restricted to the year). -/
def _unix_to_year (ts : Int) : Int :=
  let z := ts.fdiv 86400 + 719468
  let era := z.fdiv 146097
  let doe := z - era * 146097
  let yoe := (doe - doe.fdiv 1460 + doe.fdiv 36524 - doe.fdiv 146096).fdiv 365
  let y := yoe + era * 400
  let doy := doe - (365 * yoe + yoe.fdiv 4 - yoe.fdiv 100)
  let mp := (5 * doy + 2).fdiv 153
  let m := if mp < 10 then mp + 3 else mp - 9
  if m ≤ 2 then y + 1 else y

/-- One digit character of an ISO timestamp. -/
def digitVal (c : Char) : Option Nat :=
  if 48 ≤ c.toNat ∧ c.toNat ≤ 57 then some (c.toNat - 48) else none

/-- An ISO-8601 UTC timestamp string in GitHub's `YYYY-MM-DDTHH:MM:SSZ`
shape, converted to UNIX seconds; `none` when the text does not have that
shape or the fields are out of range. -/
def parseGithubTimestamp (s : String) : Option Int :=
  match s.data with
  | [y1, y2, y3, y4, sep1, mo1, mo2, sep2, d1, d2, sepT, h1, h2, sep3, mi1, mi2, sep4, se1, se2, sepZ] =>
    if sep1 = '-' ∧ sep2 = '-' ∧ sepT = 'T' ∧ sep3 = ':' ∧ sep4 = ':' ∧ sepZ = 'Z' then
      match digitVal y1, digitVal y2, digitVal y3, digitVal y4, digitVal mo1, digitVal mo2,
            digitVal d1, digitVal d2, digitVal h1, digitVal h2, digitVal mi1, digitVal mi2,
            digitVal se1, digitVal se2 with
      | some a, some b, some c, some d, some e, some f, some g, some h,
        some i, some j, some k, some l, some m, some n =>
        let year : Int := ((a * 1000 + b * 100 + c * 10 + d : Nat) : Int)
        let month : Int := ((e * 10 + f : Nat) : Int)
        let day : Int := ((g * 10 + h : Nat) : Int)
        let hour : Int := ((i * 10 + j : Nat) : Int)
        let minute : Int := ((k * 10 + l : Nat) : Int)
        let second : Int := ((m * 10 + n : Nat) : Int)
        if 1 ≤ month ∧ month ≤ 12 ∧ 1 ≤ day ∧ day ≤ 31 ∧ hour ≤ 23 ∧ minute ≤ 59 ∧ second ≤ 59 then
          some (daysFromCivil year month day * 86400 + hour * 3600 + minute * 60 + second)
        else none
      | _, _, _, _, _, _, _, _, _, _, _, _, _, _ => none
    else none
  | _ => none

/-! ### Normalizer (`normalize_joss_submissions.py`) -/

/-- The normalized record (spec section 3, "Submission").  `closed` uses
the sentinel 0 when the issue is still open; the exact extra fields the
external body parser extracts are not specified by this core and are
omitted. -/
structure Submission where
  issueNumber : Int
  opened : Int
  closed : Int
  labels : List String

/-- Modelled from the spec: `from_github_issue_payload` is imported from
`src.transform.joss_submission`, a module that is not among this
repository's sources; only its call site is visible.  Per spec sections
3 and 4.2 it turns the marker-bearing body plus metadata into a
`Submission` whose `issueNumber` is the supplied issue number, whose
timestamps come from the created/closed ISO strings (absent closure
encoded as the sentinel 0), and it may reject malformed text or
timestamps, which the caller observes as an exception. -/
def from_github_issue_payload (issueNum : Int) (body : String) (created_at : String)
    (closed_at : Option String) (labels : List String) : Option Submission :=
  if containsMarker body = false then none
  else
    match parseGithubTimestamp created_at with
    | none => none
    | some opened =>
      match closed_at with
      | none => some ⟨issueNum, opened, 0, labels⟩
      | some c =>
        match parseGithubTimestamp c with
        | none => none
        | some closed => some ⟨issueNum, opened, closed, labels⟩

/-- The shape of the external body parser as the Normalizer calls it
(`normalize_joss_submissions.py` lines 118-124); `none` models the
exception branch of lines 125-128. -/
abbrev Parser := Int → String → String → Option String → List String → Option Submission

/-- One file of the input directory: its name and its content (`none`
when the bytes are not valid JSON, so that `json.loads` raises). -/
structure FileEntry where
  name : String
  content : Option JsonVal

/-- `_labels_from_issue` (`normalize_joss_submissions.py` lines 31-49). -/
def _labels_from_issue (issue : JsonObject) : List String :=
  match jLookup issue "labels" with
  | some (.arr items) =>
    items.filterMap (fun item =>
      match item with
      | .obj o =>
        match jLookup o "name" with
        | some (.str s) => some s
        | _ => none
      | _ => none)
  | _ => []

/-- The `closed_at` argument the caller passes to the body parser
(`normalize_joss_submissions.py` line 122:
`closed_at if isinstance(closed_at, str) else None`). -/
def closedAtOf (issue : JsonObject) : Option String :=
  match jLookup issue "closed_at" with
  | some (.str c) => some c
  | _ => none

/-- What processing one file does to the loop state of `_normalize_dir`
(`normalize_joss_submissions.py` lines 94-130): abort the run (uncaught
exception), count a skip, count a parse failure, or emit a submission. -/
inductive FileOutcome where
  | err (msg : String)
  | skip
  | failParse
  | okSub (sub : Submission)

/-- The body of the per-file loop of `_normalize_dir`
(`normalize_joss_submissions.py` lines 94-130), in the code's order:
`_load_json` raises on undecodable JSON (line 95, uncaught); `raw.get`
raises on a non-object top level; a missing/non-dict `issue`, a
non-string or marker-free `body`, and a missing integer `number` or
string `created_at` each count a skip (lines 97-113); a parser rejection
counts a failure (lines 117-128); otherwise the submission is emitted. -/
def fileStep (parse : Parser) (f : FileEntry) : FileOutcome :=
  match f.content with
  | none => .err ("json.JSONDecodeError: " ++ f.name)
  | some (.obj raw) =>
    match jLookup raw "issue" with
    | some (.obj issue) =>
      match jLookup issue "body" with
      | some (.str body) =>
        if containsMarker body = false then .skip
        else
          match asPyInt (jLookup issue "number"), jLookup issue "created_at" with
          | some number, some (.str created_at) =>
            match parse number body created_at (closedAtOf issue) (_labels_from_issue issue) with
            | some sub => .okSub sub
            | none => .failParse
          | _, _ => .skip
      | _ => .skip
    | _ => .skip
  | some _ => .err ("AttributeError: " ++ f.name)

/-- The loop of `_normalize_dir` over the sorted file list, carrying the
`submissions`/`skipped`/`failed` accumulators; an `err` outcome aborts
the whole run (the exception propagates out of `_normalize_dir`). -/
def normalizeFilesAux (parse : Parser) :
    List FileEntry → List Submission → Nat → Nat → Except String (List Submission × Nat × Nat)
  | [], subs, sk, fl => .ok (subs, sk, fl)
  | f :: rest, subs, sk, fl =>
    match fileStep parse f with
    | .err m => .error m
    | .skip => normalizeFilesAux parse rest subs (sk + 1) fl
    | .failParse => normalizeFilesAux parse rest subs sk (fl + 1)
    | .okSub s => normalizeFilesAux parse rest (subs ++ [s]) sk fl

/-- Python's `sorted` order on file names (lexicographic by code point). -/
def fileLeR : FileEntry → FileEntry → Prop := fun a b => strLe a.name b.name = true

instance : DecidableRel fileLeR := fun f g =>
  inferInstanceAs (Decidable (strLe f.name g.name = true))

/-- `sorted(in_dir.glob(...))` — the deterministic processing order. -/
def sortFiles (files : List FileEntry) : List FileEntry := List.insertionSort fileLeR files

/-- `in_dir.glob("issue_*.json")`: the files whose name starts with
`issue_` and ends with `.json`. -/
def globIssueFiles (dir : List FileEntry) : List FileEntry :=
  dir.filter (fun f => strStarts "issue_" f.name && strEnds ".json" f.name)

/-- `_normalize_dir` (`normalize_joss_submissions.py` lines 79-132):
process `sorted(in_dir.glob("issue_*.json"))` left to right, returning
`(submissions, skipped, failed)` unless a file aborts the run. -/
def _normalize_dir (parse : Parser) (dir : List FileEntry) :
    Except String (List Submission × Nat × Nat) :=
  normalizeFilesAux parse (sortFiles (globIssueFiles dir)) [] 0 0

/-! ### Aggregator/Reporter (`issues_per_year.py`) -/

/-- `_count_years` (`issues_per_year.py` lines 68-98), as the multiset of
bucketed years in list order: the `Counter` of the code maps each year to
its multiplicity in this list.  Records without an `int` under `key` are
ignored; with `skipZero`, records whose timestamp is exactly 0 are
ignored too. -/
def _count_years (subs : List JsonObject) (key : String) (skipZero : Bool) : List Int :=
  subs.filterMap (fun sub =>
    match asPyInt (jLookup sub key) with
    | none => none
    | some ts =>
      if skipZero && decide (ts = 0) then none else some (_unix_to_year ts))

/-- `_plot_counts` (`issues_per_year.py` lines 101-140): raises when the
counter is empty, otherwise saves the chart and returns its path. -/
def _plot_counts (counts : List Int) (title : String) (outPath : String) : Except String String :=
  if counts.isEmpty then .error ("No data to plot for: " ++ title) else .ok outPath

/-- The plotting sequence of `main` (`issues_per_year.py` lines 206-248)
on loaded submissions: count both buckets, log the opened range —
`min(opened_counts.keys())` raises `ValueError` on an empty counter
(line 211) — then plot opened counts unconditionally and closed counts
only when non-empty (lines 238-248).  Returns the chart paths written. -/
def analysisMain (subs : List JsonObject) : Except String (List String) :=
  let openedCounts := _count_years subs "Opened" false
  let closedCounts := _count_years subs "Closed" true
  if openedCounts.isEmpty then .error "ValueError: min() arg is an empty sequence"
  else
    match _plot_counts openedCounts "Number of issues opened per year (editorialbot)"
        "open_issues_per_year.png" with
    | .error e => .error e
    | .ok p1 =>
      if closedCounts.isEmpty then .ok [p1]
      else
        match _plot_counts closedCounts "Number of issues closed per year (editorialbot)"
            "closed_issues_per_year.png" with
        | .error e => .error e
        | .ok p2 => .ok [p1, p2]

/-! ### Invariants used by the claims -/

/-- The submission produced by one file, if any. -/
def outcomeSub : FileOutcome → Option Submission
  | .okSub s => some s
  | _ => none

/-- Did processing this file count a skip? -/
def outcomeIsSkip : FileOutcome → Bool
  | .skip => true
  | _ => false

/-- Did processing this file count a parse failure? -/
def outcomeIsFail : FileOutcome → Bool
  | .failParse => true
  | _ => false

/-- A well-formed raw store as only the Collector creates it: file names
are unique, and every file is keyed by the (typed) `number` value of the
issue it wraps, rendered the way the f-string renders it. -/
def storeWF (s : Store) : Prop :=
  (s.map Prod.fst).Nodup ∧
    ∀ e ∈ s, ∃ n, issue_number e.2.issue = some n ∧ e.1 = fileNameFor n

/-- The issue number recorded inside a raw item file, when the file
decodes to an object wrapping an issue object whose `number` passes the
`isinstance(number, int)` check (so possibly a bool). -/
def fileContentNumber (f : FileEntry) : Option PyInt :=
  match f.content with
  | some (.obj raw) =>
    match jLookup raw "issue" with
    | some (.obj issue) => issue_number issue
    | _ => none
  | _ => none

/-- A well-formed input directory for the Normalizer, as the Collector
writes it: file names are unique and each file is named after the issue
number it contains. -/
def dirWF (dir : List FileEntry) : Prop :=
  (dir.map FileEntry.name).Nodup ∧
    ∀ f ∈ dir, ∀ n, fileContentNumber f = some n → f.name = fileNameFor n

/-! ### Concrete fixtures used by witnesses and counterexamples -/

/-- A marker-bearing issue body. -/
def okBody : String := "Review: <!--author-handle--> someone"

/-- A fully valid raw issue object with number `n`. -/
def reviewIssue (n : Int) : JsonObject :=
  [("body", JsonVal.str okBody), ("number", JsonVal.int n),
   ("created_at", JsonVal.str "2020-01-02T03:04:05Z"), ("closed_at", JsonVal.null),
   ("labels", JsonVal.arr [JsonVal.obj [("name", JsonVal.str "review")]])]

/-- A raw item file wrapping `reviewIssue n` under the name `nm`. -/
def reviewFile (nm : String) (n : Int) : FileEntry :=
  ⟨nm, some (JsonVal.obj [("issue", JsonVal.obj (reviewIssue n))])⟩

/-- The submission `reviewIssue n` normalizes to
(`2020-01-02T03:04:05Z` is UNIX second 1577934245). -/
def reviewSub (n : Int) : Submission := ⟨n, 1577934245, 0, ["review"]⟩

/-- A directory holding one file whose bytes are not valid JSON. -/
def c1Dir : List FileEntry := [⟨"issue_1.json", none⟩]

/-- A directory holding one decodable file without an `issue` object. -/
def c1wDir : List FileEntry := [⟨"issue_2.json", some (JsonVal.obj [])⟩]

/-- Two valid raw items whose issue numbers have different digit widths. -/
def c2Dir : List FileEntry := [reviewFile "issue_5.json" 5, reviewFile "issue_10.json" 10]

/-- The output the Normalizer produces for `c2Dir`, in emission order. -/
def c2Subs : List Submission := [reviewSub 10, reviewSub 5]

/-- An issue object whose body lacks the marker. -/
def c5SkipIssue : JsonObject := [("body", JsonVal.str "a housekeeping issue")]

/-- The raw wrapper of `c5SkipIssue`. -/
def c5SkipRaw : JsonObject := [("issue", JsonVal.obj c5SkipIssue)]

/-- An issue object with the marker but an unparseable created-at field. -/
def c5FailIssue : JsonObject :=
  [("body", JsonVal.str okBody), ("number", JsonVal.int 4),
   ("created_at", JsonVal.str "not-a-timestamp")]

/-- The raw wrapper of `c5FailIssue`. -/
def c5FailRaw : JsonObject := [("issue", JsonVal.obj c5FailIssue)]

/-- A 403 response without rate-limit headers (e.g. plain permission denial). -/
def plain403 : HttpResponse := ⟨403, none, none, "forbidden: permission denied", none⟩

/-- A rate-limit 403: zero remaining quota and a reset timestamp. -/
def rl403 : HttpResponse := ⟨403, some "0", some 100, "rate limited", none⟩

/-- A successful response delivering an empty page. -/
def ok200 : HttpResponse := ⟨200, some "4999", none, "", some []⟩

/-- A bot-authored issue with number 3. -/
def botIssue3 : JsonObject :=
  [("number", JsonVal.int 3), ("user", JsonVal.obj [("login", JsonVal.str "editorialbot")])]

/-- A remote source with a single one-item page. -/
def onePagePages : Nat → List JsonObject := fun p => if p = 1 then [botIssue3] else []

/-- The store a run against `onePagePages` produces from an empty store. -/
def oneIssueStore : Store :=
  [("issue_3.json", ⟨"github", "openjournals/joss-reviews", "t1", botIssue3⟩)]

/-- Three items: two full pages of two plus one short page at size 2. -/
def c6Items : List JsonObject := [[], [], []]

/-- A one-file directory keyed by its content number. -/
def c7Dir : List FileEntry := [reviewFile "issue_7.json" 7]

/-- A record whose closed timestamp is the absent sentinel 0. -/
def c8Closed0 : JsonObject := [("Closed", JsonVal.int 0)]

/-- A record opened at 2021-12-31T23:59:59Z (UNIX second 1640995199). -/
def c8Opened : JsonObject := [("Opened", JsonVal.int 1640995199)]

/-- Submissions with closed data but no opened data. -/
def c9Subs : List JsonObject := [[("Closed", JsonVal.int 1609459200)]]

/-- Submissions with opened data but no closed data. -/
def c9OkSubs : List JsonObject := [[("Opened", JsonVal.int 1609459200)]]

/-- A bot-authored, marker-bearing issue whose `number` field is the
JSON boolean `true`: it passes `isinstance(number, int)` because Python
bools are ints, and an f-string renders it as `True`. -/
def boolNumIssue : JsonObject :=
  [("body", JsonVal.str okBody), ("number", JsonVal.bool true),
   ("created_at", JsonVal.str "2020-01-02T03:04:05Z"), ("closed_at", JsonVal.null),
   ("labels", JsonVal.arr []),
   ("user", JsonVal.obj [("login", JsonVal.str "editorialbot")])]

/-- The same issue with the genuine integer number 1 (`True == 1`). -/
def intNumIssue : JsonObject :=
  [("body", JsonVal.str okBody), ("number", JsonVal.int 1),
   ("created_at", JsonVal.str "2020-01-02T03:04:05Z"), ("closed_at", JsonVal.null),
   ("labels", JsonVal.arr []),
   ("user", JsonVal.obj [("login", JsonVal.str "editorialbot")])]

/-- A remote source serving both issues on a single short page. -/
def boolIntPages : Nat → List JsonObject :=
  fun p => if p = 1 then [boolNumIssue, intNumIssue] else []

/-- The store that run produces: two files, `issue_True.json` and
`issue_1.json`, whose numbers compare equal under Python `==`. -/
def boolIntStore : Store :=
  [("issue_True.json", ⟨"github", "openjournals/joss-reviews", "t1", boolNumIssue⟩),
   ("issue_1.json", ⟨"github", "openjournals/joss-reviews", "t1", intNumIssue⟩)]

/-- That store read back as the Normalizer's input directory. -/
def boolIntDir : List FileEntry :=
  [⟨"issue_True.json", some (JsonVal.obj
      [("source", JsonVal.str "github"),
       ("repo", JsonVal.str "openjournals/joss-reviews"),
       ("fetched_at", JsonVal.str "t1"),
       ("issue", JsonVal.obj boolNumIssue)])⟩,
   ⟨"issue_1.json", some (JsonVal.obj
      [("source", JsonVal.str "github"),
       ("repo", JsonVal.str "openjournals/joss-reviews"),
       ("fetched_at", JsonVal.str "t1"),
       ("issue", JsonVal.obj intNumIssue)])⟩]

/-- A bot-authored issue object with no `number` field. -/
def c10Issue : JsonObject := [("user", JsonVal.obj [("login", JsonVal.str "editorialbot")])]

/-! ## Lemmas: decimal rendering is injective -/

theorem undigits_natDigitsAux : ∀ fuel n : Nat, n ≤ fuel → undigits (natDigitsAux fuel n) = n := by
  intro fuel
  induction fuel with
  | zero =>
    intro n h
    have hn : n = 0 := by omega
    subst hn
    rfl
  | succ fu ih =>
    intro n h
    by_cases hn : n = 0
    · subst hn
      rfl
    · have hdiv : n / 10 ≤ fu := by
        have hlt : n / 10 < n := Nat.div_lt_self (Nat.pos_of_ne_zero hn) (by norm_num)
        omega
      simp only [natDigitsAux, hn, if_false, undigits, ih _ hdiv]
      omega

theorem undigits_natDigits (n : Nat) : undigits (natDigits n) = n :=
  undigits_natDigitsAux n n le_rfl

theorem natDigitsAux_lt : ∀ fuel n : Nat, ∀ d ∈ natDigitsAux fuel n, d < 10 := by
  intro fuel
  induction fuel with
  | zero => intro n d hd; simp [natDigitsAux] at hd
  | succ fu ih =>
    intro n d hd
    by_cases hn : n = 0
    · subst hn; simp [natDigitsAux] at hd
    · simp only [natDigitsAux, hn, if_false, List.mem_cons] at hd
      rcases hd with h | h
      · omega
      · exact ih _ d h

theorem natDigits_lt (n : Nat) : ∀ d ∈ natDigits n, d < 10 :=
  natDigitsAux_lt n n

theorem natDigits_ne_nil (n : Nat) (hn : n ≠ 0) : natDigits n ≠ [] := by
  cases n with
  | zero => exact absurd rfl hn
  | succ k => simp [natDigits, natDigitsAux]

theorem digitChar_inj10 : ∀ d₁ < 10, ∀ d₂ < 10, Nat.digitChar d₁ = Nat.digitChar d₂ → d₁ = d₂ := by
  decide

theorem digitChar_ne_dash : ∀ d < 10, Nat.digitChar d ≠ '-' := by decide

theorem map_digitChar_inj :
    ∀ l₁ l₂ : List Nat, (∀ d ∈ l₁, d < 10) → (∀ d ∈ l₂, d < 10) →
      l₁.map Nat.digitChar = l₂.map Nat.digitChar → l₁ = l₂ := by
  intro l₁
  induction l₁ with
  | nil =>
    intro l₂ _ _ h
    cases l₂ with
    | nil => rfl
    | cons b bs => simp at h
  | cons a as ih =>
    intro l₂ h₁ h₂ h
    cases l₂ with
    | nil => simp at h
    | cons b bs =>
      simp only [List.map_cons, List.cons.injEq] at h
      have ha : a < 10 := h₁ a (by simp)
      have hb : b < 10 := h₂ b (by simp)
      have hab : a = b := digitChar_inj10 a ha b hb h.1
      have : as = bs :=
        ih bs (fun d hd => h₁ d (by simp [hd])) (fun d hd => h₂ d (by simp [hd])) h.2
      rw [hab, this]

theorem natDecimal_singleton_zero (n : Nat) (h : (natDecimal n).data = ['0']) : n = 0 := by
  by_cases hn : n = 0
  · exact hn
  · exfalso
    simp only [natDecimal, hn, if_false] at h
    have h' : (natDigits n).reverse.map Nat.digitChar = ['0'] := h
    have hmap : (natDigits n).reverse.map Nat.digitChar = [0].map Nat.digitChar := by
      simpa using h'
    have hrev : (natDigits n).reverse = [0] := by
      refine map_digitChar_inj _ _ ?_ ?_ hmap
      · intro d hd
        exact natDigits_lt n d (List.mem_reverse.mp hd)
      · intro d hd
        simp at hd
        omega
    have hdig : natDigits n = [0] := by
      have := congrArg List.reverse hrev
      simpa using this
    have := undigits_natDigits n
    rw [hdig] at this
    simp [undigits] at this
    exact hn this.symm

theorem natDecimal_inj : ∀ m n : Nat, natDecimal m = natDecimal n → m = n := by
  intro m n h
  have hd : (natDecimal m).data = (natDecimal n).data := congrArg String.data h
  by_cases hm : m = 0
  · subst hm
    have : (natDecimal n).data = ['0'] := by
      rw [← hd]; rfl
    exact (natDecimal_singleton_zero n this).symm
  · by_cases hn : n = 0
    · subst hn
      have : (natDecimal m).data = ['0'] := by
        rw [hd]; rfl
      exact natDecimal_singleton_zero m this
    · simp only [natDecimal, hm, hn, if_false] at hd
      have hrev : (natDigits m).reverse = (natDigits n).reverse := by
        refine map_digitChar_inj _ _ ?_ ?_ hd
        · intro d hdm
          exact natDigits_lt m d (List.mem_reverse.mp hdm)
        · intro d hdn
          exact natDigits_lt n d (List.mem_reverse.mp hdn)
      have hdig : natDigits m = natDigits n := by
        have := congrArg List.reverse hrev
        simpa using this
      have h₁ := undigits_natDigits m
      have h₂ := undigits_natDigits n
      rw [hdig] at h₁
      omega

theorem natDecimal_no_dash (n : Nat) : ∀ c ∈ (natDecimal n).data, c ≠ '-' := by
  intro c hc
  by_cases hn : n = 0
  · subst hn
    simp only [natDecimal, if_pos rfl] at hc
    have : c = '0' := by simpa using hc
    subst this
    decide
  · simp only [natDecimal, hn, if_false, List.mem_map] at hc
    obtain ⟨d, hd, hdc⟩ := hc
    have : d < 10 := natDigits_lt n d (List.mem_reverse.mp hd)
    rw [← hdc]
    exact digitChar_ne_dash d this

theorem natDecimal_data_ne_nil (n : Nat) : (natDecimal n).data ≠ [] := by
  by_cases hn : n = 0
  · subst hn; simp [natDecimal]
  · simp only [natDecimal, hn, if_false]
    intro h
    have h' : (natDigits n).reverse.map Nat.digitChar = [] := h
    simp only [List.map_eq_nil_iff, List.reverse_eq_nil_iff] at h'
    exact natDigits_ne_nil n hn h'

theorem data_append_dash (s : String) : ("-" ++ s).data = '-' :: s.data := by
  rw [String.data_append]
  rfl

theorem intDecimal_inj : ∀ i j : Int, intDecimal i = intDecimal j → i = j := by
  intro i j h
  cases i with
  | ofNat m =>
    cases j with
    | ofNat n =>
      exact congrArg Int.ofNat (natDecimal_inj m n h)
    | negSucc n =>
      exfalso
      have hd : (natDecimal m).data = '-' :: (natDecimal (n + 1)).data := by
        have := congrArg String.data h
        rwa [show intDecimal (Int.ofNat m) = natDecimal m from rfl,
             show intDecimal (Int.negSucc n) = "-" ++ natDecimal (n + 1) from rfl,
             data_append_dash] at this
      have : '-' ∈ (natDecimal m).data := by rw [hd]; simp
      exact natDecimal_no_dash m '-' this rfl
  | negSucc m =>
    cases j with
    | ofNat n =>
      exfalso
      have hd : (natDecimal n).data = '-' :: (natDecimal (m + 1)).data := by
        have := congrArg String.data h.symm
        rwa [show intDecimal (Int.ofNat n) = natDecimal n from rfl,
             show intDecimal (Int.negSucc m) = "-" ++ natDecimal (m + 1) from rfl,
             data_append_dash] at this
      have : '-' ∈ (natDecimal n).data := by rw [hd]; simp
      exact natDecimal_no_dash n '-' this rfl
    | negSucc n =>
      have hd : '-' :: (natDecimal (m + 1)).data = '-' :: (natDecimal (n + 1)).data := by
        have := congrArg String.data h
        rwa [show intDecimal (Int.negSucc m) = "-" ++ natDecimal (m + 1) from rfl,
             show intDecimal (Int.negSucc n) = "-" ++ natDecimal (n + 1) from rfl,
             data_append_dash, data_append_dash] at this
      have hdec : natDecimal (m + 1) = natDecimal (n + 1) := by
        apply String.ext
        exact (List.cons.injEq _ _ _ _ ▸ hd).2
      have hs := natDecimal_inj (m + 1) (n + 1) hdec
      have hmn : m = n := by omega
      exact congrArg Int.negSucc hmn

theorem natDecimal_char_digit (n : Nat) :
    ∀ c ∈ (natDecimal n).data, 48 ≤ c.toNat ∧ c.toNat ≤ 57 := by
  intro c hc
  by_cases hn : n = 0
  · subst hn
    simp only [natDecimal, if_pos rfl] at hc
    have : c = '0' := by simpa using hc
    subst this
    decide
  · simp only [natDecimal, hn, if_false, List.mem_map] at hc
    obtain ⟨d, hd, hdc⟩ := hc
    have hlt : d < 10 := natDigits_lt n d (List.mem_reverse.mp hd)
    rw [← hdc]
    exact (by decide :
      ∀ d < 10, 48 ≤ (Nat.digitChar d).toNat ∧ (Nat.digitChar d).toNat ≤ 57) d hlt

theorem intDecimal_ne_True (i : Int) : intDecimal i ≠ "True" := by
  intro h
  cases i with
  | ofNat n =>
    have hd : (natDecimal n).data = "True".data :=
      congrArg String.data (show natDecimal n = "True" from h)
    have hT : 'T' ∈ (natDecimal n).data := by
      rw [hd]
      decide
    have := (natDecimal_char_digit n 'T' hT).2
    have h84 : ('T').toNat = 84 := rfl
    omega
  | negSucc n =>
    have hd : '-' :: (natDecimal (n + 1)).data = "True".data := by
      have := congrArg String.data h
      rwa [show intDecimal (Int.negSucc n) = "-" ++ natDecimal (n + 1) from rfl,
           data_append_dash] at this
    have : '-' = 'T' := (List.cons.injEq _ _ _ _ ▸ hd).1
    cases this

theorem intDecimal_ne_False (i : Int) : intDecimal i ≠ "False" := by
  intro h
  cases i with
  | ofNat n =>
    have hd : (natDecimal n).data = "False".data :=
      congrArg String.data (show natDecimal n = "False" from h)
    have hF : 'F' ∈ (natDecimal n).data := by
      rw [hd]
      decide
    have := (natDecimal_char_digit n 'F' hF).2
    have h70 : ('F').toNat = 70 := rfl
    omega
  | negSucc n =>
    have hd : '-' :: (natDecimal (n + 1)).data = "False".data := by
      have := congrArg String.data h
      rwa [show intDecimal (Int.negSucc n) = "-" ++ natDecimal (n + 1) from rfl,
           data_append_dash] at this
    have : '-' = 'F' := (List.cons.injEq _ _ _ _ ▸ hd).1
    cases this

theorem pyIntStr_inj : ∀ p q : PyInt, PyInt.str p = PyInt.str q → p = q := by
  intro p q h
  cases p with
  | int m =>
    cases q with
    | int n => exact congrArg PyInt.int (intDecimal_inj m n h)
    | bool b =>
      exfalso
      cases b with
      | true => exact intDecimal_ne_True m h
      | false => exact intDecimal_ne_False m h
  | bool a =>
    cases q with
    | int n =>
      exfalso
      cases a with
      | true => exact intDecimal_ne_True n h.symm
      | false => exact intDecimal_ne_False n h.symm
    | bool b =>
      cases a <;> cases b <;> first | rfl | (exfalso; exact absurd h (by decide))

theorem fileNameFor_inj : ∀ p q : PyInt, fileNameFor p = fileNameFor q → p = q := by
  intro p q h
  have hd := congrArg String.data h
  rw [show fileNameFor p = "issue_" ++ PyInt.str p ++ ".json" from rfl,
      show fileNameFor q = "issue_" ++ PyInt.str q ++ ".json" from rfl,
      String.data_append, String.data_append, String.data_append, String.data_append,
      List.append_assoc, List.append_assoc] at hd
  have h₁ : (PyInt.str p).data ++ ".json".data = (PyInt.str q).data ++ ".json".data :=
    (List.append_right_inj _).mp hd
  have h₂ : (PyInt.str p).data = (PyInt.str q).data :=
    (List.append_left_inj _).mp h₁
  exact pyIntStr_inj p q (String.ext h₂)

/-! ## Lemmas: the lexicographic file order is total and transitive -/

theorem charListLe_cons (a b : Char) (as bs : List Char) :
    charListLe (a :: as) (b :: bs) = true ↔
      a.toNat < b.toNat ∨ (a.toNat = b.toNat ∧ charListLe as bs = true) := by
  by_cases h1 : a.toNat < b.toNat
  · simp [charListLe, h1]
  · by_cases h2 : b.toNat < a.toNat
    · simp only [charListLe, if_neg h1, if_pos h2]
      constructor
      · intro h; cases h
      · intro h
        rcases h with h | ⟨h, _⟩
        · omega
        · omega
    · simp only [charListLe, if_neg h1, if_neg h2]
      constructor
      · intro h
        right
        exact ⟨by omega, h⟩
      · intro h
        rcases h with h | ⟨_, h⟩
        · omega
        · exact h

theorem charListLe_total : ∀ x y : List Char, charListLe x y = true ∨ charListLe y x = true := by
  intro x
  induction x with
  | nil => intro y; left; rfl
  | cons a as ih =>
    intro y
    cases y with
    | nil => right; rfl
    | cons b bs =>
      rcases Nat.lt_trichotomy a.toNat b.toNat with h | h | h
      · left; exact (charListLe_cons a b as bs).mpr (Or.inl h)
      · rcases ih bs with hle | hle
        · left; exact (charListLe_cons a b as bs).mpr (Or.inr ⟨h, hle⟩)
        · right; exact (charListLe_cons b a bs as).mpr (Or.inr ⟨h.symm, hle⟩)
      · right; exact (charListLe_cons b a bs as).mpr (Or.inl h)

theorem charListLe_trans :
    ∀ x y z : List Char, charListLe x y = true → charListLe y z = true →
      charListLe x z = true := by
  intro x
  induction x with
  | nil => intro y z _ _; rfl
  | cons a as ih =>
    intro y z hxy hyz
    cases y with
    | nil => simp [charListLe] at hxy
    | cons b bs =>
      cases z with
      | nil => simp [charListLe] at hyz
      | cons c cs =>
        rcases (charListLe_cons a b as bs).mp hxy with h₁ | ⟨h₁, h₁'⟩ <;>
          rcases (charListLe_cons b c bs cs).mp hyz with h₂ | ⟨h₂, h₂'⟩
        · exact (charListLe_cons a c as cs).mpr (Or.inl (by omega))
        · exact (charListLe_cons a c as cs).mpr (Or.inl (by omega))
        · exact (charListLe_cons a c as cs).mpr (Or.inl (by omega))
        · exact (charListLe_cons a c as cs).mpr (Or.inr ⟨by omega, ih bs cs h₁' h₂'⟩)

instance : IsTotal FileEntry fileLeR :=
  ⟨fun f g => charListLe_total f.name.data g.name.data⟩

instance : IsTrans FileEntry fileLeR :=
  ⟨fun f g h hfg hgh => charListLe_trans f.name.data g.name.data h.name.data hfg hgh⟩

theorem sortFiles_sorted (files : List FileEntry) : (sortFiles files).Sorted fileLeR :=
  List.sorted_insertionSort fileLeR files

theorem sortFiles_perm (files : List FileEntry) : List.Perm (sortFiles files) files :=
  List.perm_insertionSort fileLeR files

theorem mem_sortFiles {f : FileEntry} {files : List FileEntry} :
    f ∈ sortFiles files ↔ f ∈ files :=
  (sortFiles_perm files).mem_iff

theorem mem_globIssueFiles {f : FileEntry} {dir : List FileEntry} (h : f ∈ globIssueFiles dir) :
    f ∈ dir :=
  List.mem_of_mem_filter h

/-! ## Lemmas: the Normalizer loop -/

theorem fileStep_ne_err (parse : Parser) (f : FileEntry) (kvs : List (String × JsonVal))
    (h : f.content = some (JsonVal.obj kvs)) (m : String) : fileStep parse f ≠ .err m := by
  simp only [fileStep, h]
  repeat' split
  all_goals simp

theorem normalizeFilesAux_no_err (parse : Parser) :
    ∀ (l : List FileEntry) (subs : List Submission) (sk fl : Nat),
      (∀ f ∈ l, ∀ m, fileStep parse f ≠ .err m) →
      normalizeFilesAux parse l subs sk fl =
        .ok (subs ++ l.filterMap (fun f => outcomeSub (fileStep parse f)),
             sk + l.countP (fun f => outcomeIsSkip (fileStep parse f)),
             fl + l.countP (fun f => outcomeIsFail (fileStep parse f))) := by
  intro l
  induction l with
  | nil => intro subs sk fl _; simp [normalizeFilesAux]
  | cons f rest ih =>
    intro subs sk fl hno
    have hrest : ∀ g ∈ rest, ∀ m, fileStep parse g ≠ .err m :=
      fun g hg => hno g (List.mem_cons_of_mem f hg)
    cases hstep : fileStep parse f with
    | err m => exact absurd hstep (hno f (List.mem_cons_self f rest) m)
    | skip =>
      rw [show normalizeFilesAux parse (f :: rest) subs sk fl =
            normalizeFilesAux parse rest subs (sk + 1) fl by
          simp [normalizeFilesAux, hstep]]
      rw [ih subs (sk + 1) fl hrest]
      simp only [Except.ok.injEq, Prod.mk.injEq]
      refine ⟨by simp [List.filterMap_cons, hstep, outcomeSub], ?_, ?_⟩
      · simp [List.countP_cons, hstep, outcomeIsSkip]
        try omega
      · simp [List.countP_cons, hstep, outcomeIsFail]
        try omega
    | failParse =>
      rw [show normalizeFilesAux parse (f :: rest) subs sk fl =
            normalizeFilesAux parse rest subs sk (fl + 1) by
          simp [normalizeFilesAux, hstep]]
      rw [ih subs sk (fl + 1) hrest]
      simp only [Except.ok.injEq, Prod.mk.injEq]
      refine ⟨by simp [List.filterMap_cons, hstep, outcomeSub], ?_, ?_⟩
      · simp [List.countP_cons, hstep, outcomeIsSkip]
        try omega
      · simp [List.countP_cons, hstep, outcomeIsFail]
        try omega
    | okSub s =>
      rw [show normalizeFilesAux parse (f :: rest) subs sk fl =
            normalizeFilesAux parse rest (subs ++ [s]) sk fl by
          simp [normalizeFilesAux, hstep]]
      rw [ih (subs ++ [s]) sk fl hrest]
      simp only [Except.ok.injEq, Prod.mk.injEq]
      refine ⟨by simp [List.filterMap_cons, hstep, outcomeSub], ?_, ?_⟩
      · simp [List.countP_cons, hstep, outcomeIsSkip]
        try omega
      · simp [List.countP_cons, hstep, outcomeIsFail]
        try omega

theorem normalizeFilesAux_ok_inv (parse : Parser) :
    ∀ (l : List FileEntry) (subs : List Submission) (sk fl : Nat)
      (S : List Submission) (K F : Nat),
      normalizeFilesAux parse l subs sk fl = .ok (S, K, F) →
      S = subs ++ l.filterMap (fun f => outcomeSub (fileStep parse f)) := by
  intro l
  induction l with
  | nil =>
    intro subs sk fl S K F h
    simp only [normalizeFilesAux, Except.ok.injEq, Prod.mk.injEq] at h
    simp [← h.1]
  | cons f rest ih =>
    intro subs sk fl S K F h
    cases hstep : fileStep parse f with
    | err m => simp [normalizeFilesAux, hstep] at h
    | skip =>
      rw [show normalizeFilesAux parse (f :: rest) subs sk fl =
            normalizeFilesAux parse rest subs (sk + 1) fl by
          simp [normalizeFilesAux, hstep]] at h
      rw [ih subs (sk + 1) fl S K F h]
      simp [List.filterMap_cons, hstep, outcomeSub]
    | failParse =>
      rw [show normalizeFilesAux parse (f :: rest) subs sk fl =
            normalizeFilesAux parse rest subs sk (fl + 1) by
          simp [normalizeFilesAux, hstep]] at h
      rw [ih subs sk (fl + 1) S K F h]
      simp [List.filterMap_cons, hstep, outcomeSub]
    | okSub s =>
      rw [show normalizeFilesAux parse (f :: rest) subs sk fl =
            normalizeFilesAux parse rest (subs ++ [s]) sk fl by
          simp [normalizeFilesAux, hstep]] at h
      rw [ih (subs ++ [s]) sk fl S K F h]
      simp [List.filterMap_cons, hstep, outcomeSub]

theorem fileStep_skip_of_no_marker (parse : Parser) (f : FileEntry)
    (raw issue : List (String × JsonVal)) (body : String)
    (hc : f.content = some (JsonVal.obj raw))
    (hi : jLookup raw "issue" = some (JsonVal.obj issue))
    (hb : jLookup issue "body" = some (JsonVal.str body))
    (hm : containsMarker body = false) :
    fileStep parse f = .skip := by
  simp [fileStep, hc, hi, hb, hm]

theorem fileStep_fail_of_parse_none (parse : Parser) (f : FileEntry)
    (raw issue : List (String × JsonVal)) (body created_at : String) (number : Int)
    (hc : f.content = some (JsonVal.obj raw))
    (hi : jLookup raw "issue" = some (JsonVal.obj issue))
    (hb : jLookup issue "body" = some (JsonVal.str body))
    (hm : containsMarker body = true)
    (hn : asPyInt (jLookup issue "number") = some number)
    (hcr : jLookup issue "created_at" = some (JsonVal.str created_at))
    (hp : parse number body created_at (closedAtOf issue) (_labels_from_issue issue) = none) :
    fileStep parse f = .failParse := by
  simp [fileStep, hc, hi, hb, hm, hn, hcr, hp]

/-! ## Lemmas: the Collector store -/

theorem hasKey_iff (s : Store) (k : String) : hasKey s k = true ↔ k ∈ s.map Prod.fst := by
  simp [hasKey, List.any_eq_true, List.mem_map]

theorem hasKey_false_iff (s : Store) (k : String) :
    hasKey s k = false ↔ k ∉ s.map Prod.fst := by
  rw [← hasKey_iff]
  cases h : hasKey s k <;> simp

theorem storePut_of_not_has (s : Store) (k : String) (v : RawPayload)
    (h : hasKey s k = false) : storePut s k v = s ++ [(k, v)] := by
  induction s with
  | nil => rfl
  | cons e rest ih =>
    simp only [hasKey, List.any_cons, Bool.or_eq_false_iff, beq_eq_false_iff_ne] at h
    obtain ⟨h₁, h₂⟩ := h
    have h₂' : hasKey rest k = false := h₂
    cases e with
    | mk k' v' =>
      simp only [storePut, if_neg h₁, List.cons_append, List.cons.injEq, true_and]
      exact ih h₂'

theorem mem_storePut (s : Store) (k : String) (v : RawPayload) :
    ∀ e ∈ storePut s k v, e = (k, v) ∨ e ∈ s := by
  induction s with
  | nil =>
    intro e he
    simp [storePut] at he
    simp [he]
  | cons e₀ rest ih =>
    intro e he
    cases e₀ with
    | mk k' v' =>
      by_cases hk : k' = k
      · simp only [storePut, if_pos hk, List.mem_cons] at he
        rcases he with he | he
        · exact Or.inl he
        · exact Or.inr (List.mem_cons_of_mem _ he)
      · simp only [storePut, if_neg hk, List.mem_cons] at he
        rcases he with he | he
        · exact Or.inr (by simp [he])
        · rcases ih e he with h | h
          · exact Or.inl h
          · exact Or.inr (List.mem_cons_of_mem _ h)

theorem keys_storePut_mem (s : Store) (k : String) (v : RawPayload)
    (h : k ∈ s.map Prod.fst) :
    (storePut s k v).map Prod.fst = s.map Prod.fst := by
  induction s with
  | nil => simp at h
  | cons e₀ rest ih =>
    cases e₀ with
    | mk k' v' =>
      by_cases hk : k' = k
      · simp [storePut, hk]
      · have h' : k ∈ rest.map Prod.fst := by
          simp only [List.map_cons, List.mem_cons] at h
          rcases h with h | h
          · exact absurd h.symm hk
          · exact h
        simp [storePut, hk, ih h']

theorem storeWF_put (s : Store) (v : RawPayload) (n : PyInt) (hwf : storeWF s)
    (hn : issue_number v.issue = some n) : storeWF (storePut s (fileNameFor n) v) := by
  constructor
  · by_cases hmem : fileNameFor n ∈ s.map Prod.fst
    · rw [keys_storePut_mem s _ v hmem]
      exact hwf.1
    · rw [storePut_of_not_has s _ v ((hasKey_false_iff s _).mpr hmem)]
      simp [List.nodup_append, hwf.1, hmem]
  · intro e he
    rcases mem_storePut s _ v e he with h | h
    · exact ⟨n, by simp [h, hn]⟩
    · exact hwf.2 e h

theorem write_issue_file_no_number (issue : JsonObject) (repo now : String) (ow : Bool)
    (s : Store) (h : issue_number issue = none) :
    write_issue_file issue repo now ow s = (false, s) := by
  simp [write_issue_file, h]

theorem write_issue_file_existing (issue : JsonObject) (repo now : String) (s : Store)
    (n : PyInt) (h : issue_number issue = some n) (hk : hasKey s (fileNameFor n) = true) :
    write_issue_file issue repo now false s = (false, s) := by
  simp [write_issue_file, h, hk]

theorem write_issue_file_WF (issue : JsonObject) (repo now : String) (ow : Bool)
    (s : Store) (hwf : storeWF s) :
    storeWF (write_issue_file issue repo now ow s).2 := by
  cases hn : issue_number issue with
  | none => simpa [write_issue_file, hn] using hwf
  | some n =>
    by_cases hk : hasKey s (fileNameFor n) && !ow
    · simpa [write_issue_file, hn, hk] using hwf
    · simp only [write_issue_file, hn, hk, Bool.false_eq_true, if_false]
      exact storeWF_put s ⟨"github", repo, now, issue⟩ n hwf hn

theorem write_false_store (issue : JsonObject) (repo now : String) (s : Store) :
    (write_issue_file issue repo now false s).2 = s ∨
    ∃ n, issue_number issue = some n ∧ hasKey s (fileNameFor n) = false ∧
      (write_issue_file issue repo now false s).2 =
        s ++ [(fileNameFor n, ⟨"github", repo, now, issue⟩)] := by
  cases hn : issue_number issue with
  | none => left; simp [write_issue_file, hn]
  | some n =>
    cases hk : hasKey s (fileNameFor n) with
    | true => left; simp [write_issue_file, hn, hk]
    | false =>
      right
      refine ⟨n, rfl, hk, ?_⟩
      simp [write_issue_file, hn, hk, storePut_of_not_has s _ _ hk]

theorem write_false_key (issue : JsonObject) (repo now : String) (s : Store) (n : PyInt)
    (hn : issue_number issue = some n) :
    fileNameFor n ∈ ((write_issue_file issue repo now false s).2).map Prod.fst := by
  cases hk : hasKey s (fileNameFor n) with
  | true =>
    rw [write_issue_file_existing issue repo now s n hn hk]
    exact (hasKey_iff s _).mp hk
  | false =>
    simp [write_issue_file, hn, hk, storePut_of_not_has s _ _ hk]

theorem foldWrites_mono (repo now : String) :
    ∀ (l : List JsonObject) (st : CollectState),
      ∃ ext, (l.foldl (wStep repo now false) st).store = st.store ++ ext := by
  intro l
  induction l with
  | nil => intro st; exact ⟨[], by simp⟩
  | cons i rest ih =>
    intro st
    rw [List.foldl_cons]
    obtain ⟨e₁, he₁⟩ := ih (wStep repo now false st i)
    rcases write_false_store i repo now st.store with h | ⟨n, _, _, h⟩
    · refine ⟨e₁, ?_⟩
      rw [he₁]
      have : (wStep repo now false st i).store = st.store := h
      rw [this]
    · refine ⟨[(fileNameFor n, ⟨"github", repo, now, i⟩)] ++ e₁, ?_⟩
      rw [he₁]
      have : (wStep repo now false st i).store =
          st.store ++ [(fileNameFor n, ⟨"github", repo, now, i⟩)] := h
      rw [this, List.append_assoc]

theorem foldWrites_covers (repo now : String) :
    ∀ (l : List JsonObject) (st : CollectState) (i : JsonObject) (n : PyInt),
      i ∈ l → issue_number i = some n →
      fileNameFor n ∈ ((l.foldl (wStep repo now false) st).store).map Prod.fst := by
  intro l
  induction l with
  | nil => intro st i n hi; simp at hi
  | cons j rest ih =>
    intro st i n hi hn
    rw [List.foldl_cons]
    rcases List.mem_cons.mp hi with hj | hi'
    · subst hj
      obtain ⟨ext, hext⟩ := foldWrites_mono repo now rest (wStep repo now false st i)
      rw [hext]
      have hkey : fileNameFor n ∈ ((wStep repo now false st i).store).map Prod.fst :=
        write_false_key i repo now st.store n hn
      simp only [List.map_append, List.mem_append]
      exact Or.inl hkey
    · exact ih (wStep repo now false st j) i n hi' hn

theorem foldWrites_replay (repo now : String) :
    ∀ (l : List JsonObject) (t : Store) (w : Nat),
      (∀ i ∈ l, ∀ n, issue_number i = some n → fileNameFor n ∈ t.map Prod.fst) →
      l.foldl (wStep repo now false) ⟨t, w⟩ = ⟨t, w⟩ := by
  intro l
  induction l with
  | nil => intro t w _; rfl
  | cons i rest ih =>
    intro t w hcov
    rw [List.foldl_cons]
    have hstep : wStep repo now false ⟨t, w⟩ i = ⟨t, w⟩ := by
      cases hn : issue_number i with
      | none => simp [wStep, write_issue_file_no_number i repo now false t hn]
      | some n =>
        have hk : hasKey t (fileNameFor n) = true :=
          (hasKey_iff t _).mpr (hcov i (List.mem_cons_self i rest) n hn)
        simp [wStep, write_issue_file_existing i repo now t n hn hk]
    rw [hstep]
    exact ih t w (fun j hj => hcov j (List.mem_cons_of_mem i hj))

theorem foldWrites_WF (repo now : String) (ow : Bool) :
    ∀ (l : List JsonObject) (st : CollectState), storeWF st.store →
      storeWF ((l.foldl (wStep repo now ow) st).store) := by
  intro l
  induction l with
  | nil => intro st h; exact h
  | cons i rest ih =>
    intro st h
    rw [List.foldl_cons]
    refine ih (wStep repo now ow st i) ?_
    exact write_issue_file_WF i repo now ow st.store h

theorem writePage_mono (issues : List JsonObject) (bot repo now : String) (st : CollectState) :
    ∃ ext, (writePage issues bot repo now false st).store = st.store ++ ext := by
  rw [writePage]
  exact foldWrites_mono repo now _ st

theorem writePage_covers (issues : List JsonObject) (bot repo now : String) (st : CollectState)
    (i : JsonObject) (n : PyInt) (hi : i ∈ issues.filter (fun i => opened_by_login i bot))
    (hn : issue_number i = some n) :
    fileNameFor n ∈ ((writePage issues bot repo now false st).store).map Prod.fst := by
  rw [writePage]
  exact foldWrites_covers repo now _ st i n hi hn

theorem writePage_replay (issues : List JsonObject) (bot repo now : String) (t : Store) (w : Nat)
    (hcov : ∀ i ∈ issues.filter (fun i => opened_by_login i bot), ∀ n,
      issue_number i = some n → fileNameFor n ∈ t.map Prod.fst) :
    writePage issues bot repo now false ⟨t, w⟩ = ⟨t, w⟩ := by
  rw [writePage]
  exact foldWrites_replay repo now _ t w hcov

theorem writePage_WF (issues : List JsonObject) (bot repo now : String) (ow : Bool)
    (st : CollectState) (h : storeWF st.store) :
    storeWF ((writePage issues bot repo now ow st).store) := by
  rw [writePage]
  exact foldWrites_WF repo now ow _ st h

theorem collectLoop_mono (pages : Nat → List JsonObject) (pp : Nat) (mp : Option Nat)
    (bot repo now : String) :
    ∀ (fuel page : Nat) (s : Store) (w : Nat) (s' : Store) (w' k : Nat),
      collectLoop pages pp mp bot repo now false fuel page ⟨s, w⟩ = some (⟨s', w'⟩, k) →
      ∃ ext, s' = s ++ ext := by
  intro fuel
  induction fuel with
  | zero => intro page s w s' w' k h; simp [collectLoop] at h
  | succ fu ih =>
    intro page s w s' w' k h
    simp only [collectLoop] at h
    by_cases he : (pages page).isEmpty = true
    · rw [if_pos he] at h
      simp only [Option.some.injEq, Prod.mk.injEq, CollectState.mk.injEq] at h
      exact ⟨[], by simp [h.1.1]⟩
    · rw [if_neg he] at h
      obtain ⟨e₀, he₀⟩ :=
        writePage_mono (pages page) bot repo now ⟨s, w⟩
      by_cases hshort : (pages page).length < pp
      · rw [if_pos hshort] at h
        simp only [Option.some.injEq, Prod.mk.injEq] at h
        have hs : (writePage (pages page) bot repo now false ⟨s, w⟩).store = s' :=
          congrArg CollectState.store h.1
        exact ⟨e₀, by rw [← hs, he₀]⟩
      · rw [if_neg hshort] at h
        by_cases hceil : pageCeiling mp page = true
        · rw [if_pos hceil] at h
          simp only [Option.some.injEq, Prod.mk.injEq] at h
          have hs : (writePage (pages page) bot repo now false ⟨s, w⟩).store = s' :=
            congrArg CollectState.store h.1
          exact ⟨e₀, by rw [← hs, he₀]⟩
        · rw [if_neg hceil] at h
          cases hrec : collectLoop pages pp mp bot repo now false fu (page + 1)
              (writePage (pages page) bot repo now false ⟨s, w⟩) with
          | none => rw [hrec] at h; simp at h
          | some res =>
            rw [hrec] at h
            cases res with
            | mk stF k₀ =>
              simp only [Option.some.injEq, Prod.mk.injEq] at h
              obtain ⟨e₁, he₁⟩ := ih (page + 1)
                (writePage (pages page) bot repo now false ⟨s, w⟩).store
                (writePage (pages page) bot repo now false ⟨s, w⟩).written
                s' w' k₀ (by rw [← h.1]; exact hrec)
              refine ⟨e₀ ++ e₁, ?_⟩
              rw [he₁, he₀, List.append_assoc]

theorem collectLoop_replay (pages : Nat → List JsonObject) (pp : Nat) (mp : Option Nat)
    (bot repo : String) :
    ∀ (fuel page : Nat) (now₁ : String) (s : Store) (w : Nat) (s' : Store) (w' k : Nat),
      collectLoop pages pp mp bot repo now₁ false fuel page ⟨s, w⟩ = some (⟨s', w'⟩, k) →
      ∀ (now₂ : String) (w₂ : Nat),
        collectLoop pages pp mp bot repo now₂ false fuel page ⟨s', w₂⟩ = some (⟨s', w₂⟩, k) := by
  intro fuel
  induction fuel with
  | zero => intro page now₁ s w s' w' k h; simp [collectLoop] at h
  | succ fu ih =>
    intro page now₁ s w s' w' k h now₂ w₂
    simp only [collectLoop] at h ⊢
    by_cases he : (pages page).isEmpty = true
    · rw [if_pos he] at h ⊢
      simp only [Option.some.injEq, Prod.mk.injEq, CollectState.mk.injEq] at h
      rw [← h.2]
    · rw [if_neg he] at h ⊢
      by_cases hshort : (pages page).length < pp
      · rw [if_pos hshort] at h ⊢
        simp only [Option.some.injEq, Prod.mk.injEq] at h
        have hcov : ∀ i ∈ (pages page).filter (fun i => opened_by_login i bot), ∀ n,
            issue_number i = some n → fileNameFor n ∈ s'.map Prod.fst := by
          intro i hi n hn
          have hmem := writePage_covers (pages page) bot repo now₁ ⟨s, w⟩ i n hi hn
          rw [h.1] at hmem
          exact hmem
        rw [writePage_replay (pages page) bot repo now₂ s' w₂ hcov, ← h.2]
      · rw [if_neg hshort] at h ⊢
        by_cases hceil : pageCeiling mp page = true
        · rw [if_pos hceil] at h ⊢
          simp only [Option.some.injEq, Prod.mk.injEq] at h
          have hcov : ∀ i ∈ (pages page).filter (fun i => opened_by_login i bot), ∀ n,
              issue_number i = some n → fileNameFor n ∈ s'.map Prod.fst := by
            intro i hi n hn
            have hmem := writePage_covers (pages page) bot repo now₁ ⟨s, w⟩ i n hi hn
            rw [h.1] at hmem
            exact hmem
          rw [writePage_replay (pages page) bot repo now₂ s' w₂ hcov, ← h.2]
        · rw [if_neg hceil] at h ⊢
          cases hrec : collectLoop pages pp mp bot repo now₁ false fu (page + 1)
              (writePage (pages page) bot repo now₁ false ⟨s, w⟩) with
          | none => rw [hrec] at h; simp at h
          | some res =>
            rw [hrec] at h
            cases res with
            | mk stF k₀ =>
              simp only [Option.some.injEq, Prod.mk.injEq] at h
              rw [h.1] at hrec
              obtain ⟨ext, hext⟩ := collectLoop_mono pages pp mp bot repo now₁ fu (page + 1)
                (writePage (pages page) bot repo now₁ false ⟨s, w⟩).store
                (writePage (pages page) bot repo now₁ false ⟨s, w⟩).written
                s' w' k₀ hrec
              have hcov : ∀ i ∈ (pages page).filter (fun i => opened_by_login i bot), ∀ n,
                  issue_number i = some n → fileNameFor n ∈ s'.map Prod.fst := by
                intro i hi n hn
                have hmem := writePage_covers (pages page) bot repo now₁ ⟨s, w⟩ i n hi hn
                rw [hext, List.map_append]
                exact List.mem_append_left _ hmem
              have hpage : writePage (pages page) bot repo now₂ false ⟨s', w₂⟩ = ⟨s', w₂⟩ :=
                writePage_replay (pages page) bot repo now₂ s' w₂ hcov
              have hrec₂ := ih (page + 1) now₁
                (writePage (pages page) bot repo now₁ false ⟨s, w⟩).store
                (writePage (pages page) bot repo now₁ false ⟨s, w⟩).written
                s' w' k₀ hrec now₂ w₂
              rw [hpage, hrec₂, ← h.2]

theorem collectLoop_WF (pages : Nat → List JsonObject) (pp : Nat) (mp : Option Nat)
    (bot repo now : String) (ow : Bool) :
    ∀ (fuel page : Nat) (st : CollectState) (res : CollectState × Nat),
      storeWF st.store →
      collectLoop pages pp mp bot repo now ow fuel page st = some res →
      storeWF res.1.store := by
  intro fuel
  induction fuel with
  | zero => intro page st res _ h; simp [collectLoop] at h
  | succ fu ih =>
    intro page st res hwf h
    simp only [collectLoop] at h
    by_cases he : (pages page).isEmpty = true
    · rw [if_pos he] at h
      simp only [Option.some.injEq] at h
      rw [← h]
      exact hwf
    · rw [if_neg he] at h
      have hwf' : storeWF ((writePage (pages page) bot repo now ow st).store) :=
        writePage_WF (pages page) bot repo now ow st hwf
      by_cases hshort : (pages page).length < pp
      · rw [if_pos hshort] at h
        simp only [Option.some.injEq] at h
        rw [← h]
        exact hwf'
      · rw [if_neg hshort] at h
        by_cases hceil : pageCeiling mp page = true
        · rw [if_pos hceil] at h
          simp only [Option.some.injEq] at h
          rw [← h]
          exact hwf'
        · rw [if_neg hceil] at h
          cases hrec : collectLoop pages pp mp bot repo now ow fu (page + 1)
              (writePage (pages page) bot repo now ow st) with
          | none => rw [hrec] at h; simp at h
          | some res' =>
            rw [hrec] at h
            simp only [Option.some.injEq] at h
            have := ih (page + 1) (writePage (pages page) bot repo now ow st) res' hwf' hrec
            rw [← h]
            exact this

theorem storeWF_numbers (s : Store) (h : storeWF s) :
    s.Pairwise (fun e₁ e₂ => ∀ n₁ n₂, issue_number e₁.2.issue = some n₁ →
      issue_number e₂.2.issue = some n₂ → n₁ ≠ n₂) := by
  have hp : s.Pairwise (fun e₁ e₂ => e₁.1 ≠ e₂.1) := by
    have := h.1
    rw [List.Nodup, List.pairwise_map] at this
    exact this
  refine hp.imp_of_mem ?_
  intro e₁ e₂ h₁ h₂ hne n₁ n₂ hn₁ hn₂ heq
  obtain ⟨m₁, hm₁, hk₁⟩ := h.2 e₁ h₁
  obtain ⟨m₂, hm₂, hk₂⟩ := h.2 e₂ h₂
  rw [hn₁, Option.some.injEq] at hm₁
  rw [hn₂, Option.some.injEq] at hm₂
  apply hne
  rw [hk₁, hk₂, ← hm₁, ← hm₂, heq]

/-! ## Lemmas: pagination -/

theorem collectLoop_short_stop (pages : Nat → List JsonObject) (pp : Nat) (mp : Option Nat)
    (bot repo now : String) (ow : Bool) (fuel page : Nat) (st : CollectState)
    (hshort : (pages page).length < pp) (hfuel : 0 < fuel) :
    ∃ st', collectLoop pages pp mp bot repo now ow fuel page st = some (st', 1) := by
  cases fuel with
  | zero => omega
  | succ fu =>
    simp only [collectLoop]
    by_cases he : (pages page).isEmpty = true
    · rw [if_pos he]
      exact ⟨st, rfl⟩
    · rw [if_neg he, if_pos hshort]
      exact ⟨writePage (pages page) bot repo now ow st, rfl⟩

theorem collectLoop_ceiling_stop (pages : Nat → List JsonObject) (pp : Nat) (mp : Option Nat)
    (bot repo now : String) (ow : Bool) (fuel page : Nat) (st : CollectState)
    (hfull : (pages page).length = pp) (hpp : 0 < pp)
    (hceil : pageCeiling mp page = true) (hfuel : 0 < fuel) :
    ∃ st', collectLoop pages pp mp bot repo now ow fuel page st = some (st', 1) := by
  cases fuel with
  | zero => omega
  | succ fu =>
    simp only [collectLoop]
    have he : ¬((pages page).isEmpty = true) := by
      rw [List.isEmpty_iff]
      intro hnil
      rw [hnil] at hfull
      simp at hfull
      omega
    have hshort : ¬((pages page).length < pp) := by omega
    rw [if_neg he, if_neg hshort, if_pos hceil]
    exact ⟨writePage (pages page) bot repo now ow st, rfl⟩

theorem collectLoop_count_filter_independent (pages : Nat → List JsonObject) (pp : Nat)
    (mp : Option Nat) :
    ∀ (fuel page : Nat) (bot₁ repo₁ now₁ : String) (ow₁ : Bool) (st₁ : CollectState)
      (bot₂ repo₂ now₂ : String) (ow₂ : Bool) (st₂ : CollectState),
      (collectLoop pages pp mp bot₁ repo₁ now₁ ow₁ fuel page st₁).map Prod.snd =
        (collectLoop pages pp mp bot₂ repo₂ now₂ ow₂ fuel page st₂).map Prod.snd := by
  intro fuel
  induction fuel with
  | zero => intro page _ _ _ _ _ _ _ _ _ _; simp [collectLoop]
  | succ fu ih =>
    intro page bot₁ repo₁ now₁ ow₁ st₁ bot₂ repo₂ now₂ ow₂ st₂
    simp only [collectLoop]
    by_cases he : (pages page).isEmpty = true
    · rw [if_pos he, if_pos he]
      simp
    · rw [if_neg he, if_neg he]
      by_cases hshort : (pages page).length < pp
      · rw [if_pos hshort, if_pos hshort]
        simp
      · rw [if_neg hshort, if_neg hshort]
        by_cases hceil : pageCeiling mp page = true
        · rw [if_pos hceil, if_pos hceil]
          simp
        · rw [if_neg hceil, if_neg hceil]
          have hih := ih (page + 1) bot₁ repo₁ now₁ ow₁
            (writePage (pages page) bot₁ repo₁ now₁ ow₁ st₁) bot₂ repo₂ now₂ ow₂
            (writePage (pages page) bot₂ repo₂ now₂ ow₂ st₂)
          cases hr₁ : collectLoop pages pp mp bot₁ repo₁ now₁ ow₁ fu (page + 1)
              (writePage (pages page) bot₁ repo₁ now₁ ow₁ st₁) with
          | none =>
            cases hr₂ : collectLoop pages pp mp bot₂ repo₂ now₂ ow₂ fu (page + 1)
                (writePage (pages page) bot₂ repo₂ now₂ ow₂ st₂) with
            | none => simp
            | some r₂ =>
              rw [hr₁, hr₂] at hih
              simp at hih
          | some r₁ =>
            cases hr₂ : collectLoop pages pp mp bot₂ repo₂ now₂ ow₂ fu (page + 1)
                (writePage (pages page) bot₂ repo₂ now₂ ow₂ st₂) with
            | none =>
              rw [hr₁, hr₂] at hih
              simp at hih
            | some r₂ =>
              rw [hr₁, hr₂] at hih
              simp at hih
              cases r₁ with
              | mk a k₁ =>
                cases r₂ with
                | mk b k₂ =>
                  simp_all

theorem chunkPages_length (items : List JsonObject) (pp page : Nat) :
    (chunkPages items pp page).length = min pp (items.length - (page - 1) * pp) := by
  simp [chunkPages, List.length_take, List.length_drop]

theorem collectLoop_chunk_count (items : List JsonObject) (pp : Nat)
    (bot repo now : String) (ow : Bool) (hpp : 0 < pp) :
    ∀ (q page : Nat) (st : CollectState) (fuel : Nat),
      1 ≤ page →
      (items.length - (page - 1) * pp) / pp = q →
      0 < (items.length - (page - 1) * pp) % pp →
      q + 1 ≤ fuel →
      ∃ stF, collectLoop (chunkPages items pp) pp none bot repo now ow fuel page st =
        some (stF, q + 1) := by
  intro q
  induction q with
  | zero =>
    intro page st fuel hpage hdiv hmod hfuel
    have hlt : items.length - (page - 1) * pp < pp := by
      rcases Nat.lt_or_ge (items.length - (page - 1) * pp) pp with h | h
      · exact h
      · exfalso
        have := (Nat.one_le_div_iff hpp).mpr h
        omega
    have hrem : 0 < items.length - (page - 1) * pp := by
      rw [Nat.mod_eq_of_lt hlt] at hmod
      exact hmod
    have hlen : (chunkPages items pp page).length = items.length - (page - 1) * pp := by
      rw [chunkPages_length]
      omega
    have hshort : (chunkPages items pp page).length < pp := by omega
    exact collectLoop_short_stop (chunkPages items pp) pp none bot repo now ow fuel page st
      hshort (by omega)
  | succ q ihq =>
    intro page st fuel hpage hdiv hmod hfuel
    have hge : pp ≤ items.length - (page - 1) * pp := by
      rcases Nat.lt_or_ge (items.length - (page - 1) * pp) pp with h | h
      · exfalso
        rw [Nat.div_eq_of_lt h] at hdiv
        omega
      · exact h
    have hlen : (chunkPages items pp page).length = pp := by
      rw [chunkPages_length]
      omega
    cases fuel with
    | zero => omega
    | succ fu =>
      have he : ¬((chunkPages items pp page).isEmpty = true) := by
        rw [List.isEmpty_iff]
        intro hnil
        rw [hnil] at hlen
        simp at hlen
        omega
      have hshort : ¬((chunkPages items pp page).length < pp) := by omega
      have hceil : ¬(pageCeiling none page = true) := by simp [pageCeiling]
      -- arithmetic for the next page
      have hsucc : page - 1 + 1 = page := Nat.succ_pred_eq_of_pos hpage
      have hmul : (page - 1) * pp + pp = page * pp := by
        calc (page - 1) * pp + pp = (page - 1 + 1) * pp := (Nat.succ_mul (page - 1) pp).symm
        _ = page * pp := by rw [hsucc]
      have hrem : items.length - (page - 1) * pp = pp * (q + 1) +
          (items.length - (page - 1) * pp) % pp := by
        have := Nat.div_add_mod (items.length - (page - 1) * pp) pp
        rw [hdiv] at this
        omega
      have hx : pp * (q + 1) = pp * q + pp := by ring
      have hrem' : items.length - page * pp =
          pp * q + (items.length - (page - 1) * pp) % pp := by
        rw [← hmul]
        omega
      have hmodlt : (items.length - (page - 1) * pp) % pp < pp :=
        Nat.mod_lt _ hpp
      have hdiv' : (items.length - (page + 1 - 1) * pp) / pp = q := by
        have h1 : page + 1 - 1 = page := rfl
        rw [h1, hrem', Nat.mul_add_div hpp, Nat.div_eq_of_lt hmodlt]
        omega
      have hmod' : 0 < (items.length - (page + 1 - 1) * pp) % pp := by
        have h1 : page + 1 - 1 = page := rfl
        rw [h1, hrem', Nat.mul_add_mod, Nat.mod_eq_of_lt hmodlt]
        exact hmod
      obtain ⟨stF, hrec⟩ := ihq (page + 1) (writePage (chunkPages items pp page) bot repo now ow st)
        fu (by omega) hdiv' hmod' (by omega)
      refine ⟨stF, ?_⟩
      simp only [collectLoop]
      rw [if_neg he, if_neg hshort, if_neg hceil, hrec]

/-! ## Lemmas: issue numbers in the Normalizer output -/

theorem from_github_issue_payload_number (n : Int) (body created : String)
    (closedOpt : Option String) (labels : List String) (sub : Submission)
    (h : from_github_issue_payload n body created closedOpt labels = some sub) :
    sub.issueNumber = n := by
  unfold from_github_issue_payload at h
  by_cases hm : containsMarker body = false
  · simp [hm] at h
  · rw [if_neg hm] at h
    cases hp : parseGithubTimestamp created with
    | none => rw [hp] at h; cases h
    | some opened =>
      rw [hp] at h
      cases closedOpt with
      | none =>
        simp only [Option.some.injEq] at h
        rw [← h]
      | some c =>
        cases hc : parseGithubTimestamp c with
        | none => simp [hc] at h
        | some closed =>
          simp only [hc, Option.some.injEq] at h
          rw [← h]

theorem outcomeSub_eq_some (o : FileOutcome) (sub : Submission)
    (h : outcomeSub o = some sub) : o = .okSub sub := by
  cases o with
  | okSub s => simp [outcomeSub] at h; rw [h]
  | err m => simp [outcomeSub] at h
  | skip => simp [outcomeSub] at h
  | failParse => simp [outcomeSub] at h

theorem asPyInt_asPyNumber (v : Option JsonVal) (n : Int)
    (h : asPyInt v = some n) : ∃ p, asPyNumber v = some p ∧ PyInt.toInt p = n := by
  cases v with
  | none => simp [asPyInt] at h
  | some jv =>
    cases jv with
    | int m =>
      simp only [asPyInt, Option.some.injEq] at h
      exact ⟨.int m, rfl, h⟩
    | bool b =>
      simp only [asPyInt, Option.some.injEq] at h
      exact ⟨.bool b, rfl, h⟩
    | null => simp [asPyInt] at h
    | str t => simp [asPyInt] at h
    | arr a => simp [asPyInt] at h
    | obj o => simp [asPyInt] at h

theorem fileStep_ok_number (f : FileEntry) (sub : Submission)
    (h : fileStep from_github_issue_payload f = .okSub sub) :
    ∃ p, fileContentNumber f = some p ∧ sub.issueNumber = PyInt.toInt p := by
  cases hc : f.content with
  | none => simp [fileStep, hc] at h
  | some v =>
    cases v with
    | null => simp [fileStep, hc] at h
    | bool b => simp [fileStep, hc] at h
    | int n => simp [fileStep, hc] at h
    | str s => simp [fileStep, hc] at h
    | arr a => simp [fileStep, hc] at h
    | obj raw =>
      cases hi : jLookup raw "issue" with
      | none => simp [fileStep, hc, hi] at h
      | some iv =>
        cases iv with
        | null => simp [fileStep, hc, hi] at h
        | bool b => simp [fileStep, hc, hi] at h
        | int n => simp [fileStep, hc, hi] at h
        | str s => simp [fileStep, hc, hi] at h
        | arr a => simp [fileStep, hc, hi] at h
        | obj issue =>
          cases hb : jLookup issue "body" with
          | none => simp [fileStep, hc, hi, hb] at h
          | some bv =>
            cases bv with
            | null => simp [fileStep, hc, hi, hb] at h
            | bool b => simp [fileStep, hc, hi, hb] at h
            | int n => simp [fileStep, hc, hi, hb] at h
            | arr a => simp [fileStep, hc, hi, hb] at h
            | obj o => simp [fileStep, hc, hi, hb] at h
            | str body =>
              by_cases hm : containsMarker body = false
              · simp [fileStep, hc, hi, hb, hm] at h
              · have hm' : containsMarker body = true := by
                  revert hm
                  cases containsMarker body <;> simp
                cases hn : asPyInt (jLookup issue "number") with
                | none => simp [fileStep, hc, hi, hb, hm', hn] at h
                | some number =>
                  cases hcr : jLookup issue "created_at" with
                  | none => simp [fileStep, hc, hi, hb, hm', hn, hcr] at h
                  | some cv =>
                    cases cv with
                    | null => simp [fileStep, hc, hi, hb, hm', hn, hcr] at h
                    | bool b => simp [fileStep, hc, hi, hb, hm', hn, hcr] at h
                    | int k => simp [fileStep, hc, hi, hb, hm', hn, hcr] at h
                    | arr a => simp [fileStep, hc, hi, hb, hm', hn, hcr] at h
                    | obj o => simp [fileStep, hc, hi, hb, hm', hn, hcr] at h
                    | str created =>
                      cases hp : from_github_issue_payload number body created
                          (closedAtOf issue) (_labels_from_issue issue) with
                      | none => simp [fileStep, hc, hi, hb, hm', hn, hcr, hp] at h
                      | some s' =>
                        have hsub : s' = sub := by
                          simp [fileStep, hc, hi, hb, hm', hn, hcr, hp] at h
                          exact h
                        have hnum : s'.issueNumber = number :=
                          from_github_issue_payload_number number body created
                            (closedAtOf issue) (_labels_from_issue issue) s' hp
                        obtain ⟨p, hp', hpt⟩ := asPyInt_asPyNumber _ number hn
                        refine ⟨p, ?_, ?_⟩
                        · simp [fileContentNumber, hc, hi, issue_number, hp']
                        · rw [← hsub, hnum, ← hpt]

theorem nodup_output_numbers :
    ∀ (L : List FileEntry),
      (L.map FileEntry.name).Nodup →
      (∀ f ∈ L, ∀ sub, outcomeSub (fileStep from_github_issue_payload f) = some sub →
        ∃ n : Int, f.name = fileNameFor (PyInt.int n) ∧ sub.issueNumber = n) →
      ((L.filterMap (fun f => outcomeSub (fileStep from_github_issue_payload f))).map
        Submission.issueNumber).Nodup := by
  intro L
  induction L with
  | nil => intro _ _; simp
  | cons f rest ih =>
    intro hnd hprop
    simp only [List.map_cons, List.nodup_cons] at hnd
    have hrest := fun g hg => hprop g (List.mem_cons_of_mem f hg)
    cases ho : outcomeSub (fileStep from_github_issue_payload f) with
    | none =>
      simp only [List.filterMap_cons, ho]
      exact ih hnd.2 hrest
    | some sub =>
      simp only [List.filterMap_cons, ho, List.map_cons, List.nodup_cons]
      refine ⟨?_, ih hnd.2 hrest⟩
      intro hmem
      simp only [List.mem_map] at hmem
      obtain ⟨sub', hsub', heq⟩ := hmem
      simp only [List.mem_filterMap] at hsub'
      obtain ⟨g, hg, hog⟩ := hsub'
      obtain ⟨n, h1, hn1⟩ := hprop f (List.mem_cons_self f rest) sub ho
      obtain ⟨n', h2, hn2⟩ := hprop g (List.mem_cons_of_mem f hg) sub' hog
      have hnn : n' = n := by rw [← hn1, ← hn2, heq]
      have hfg : f.name ∈ rest.map FileEntry.name := by
        rw [h1, ← hnn, ← h2]
        exact List.mem_map_of_mem FileEntry.name hg
      exact hnd.1 hfg

/-! ## Lemma: ceiling division -/

theorem ceil_div_eq (t p : Nat) (hp : 0 < p) (hm : 0 < t % p) :
    t / p + 1 = (t + p - 1) / p := by
  have h1 := Nat.div_add_mod t p
  have hrlt : t % p < p := Nat.mod_lt t hp
  have h2 : t + p - 1 = p * (t / p) + (t % p - 1 + p) := by omega
  rw [h2, Nat.mul_add_div hp, Nat.add_div_right _ hp,
    Nat.div_eq_of_lt (by omega : t % p - 1 < p)]

/-! ## Claim theorems -/

/-- C1 (counterexample): the claim says no per-item problem aborts the
batch, but a file whose contents are not valid JSON makes `_load_json`
raise out of `_normalize_dir`: on a directory holding one undecodable
file the whole run aborts with an error instead of counting a skip or a
failure. -/
theorem claim_C1_counterexample :
    _normalize_dir from_github_issue_payload c1Dir =
      Except.error "json.JSONDecodeError: issue_1.json" := by
  rfl

/-- C1 (amended): for every input directory all of whose files decode to
JSON objects, every per-item problem is recoverable: the run returns
normally, each non-emitting file is counted in `skipped` or `failed`, and
no per-item outcome aborts the batch.  (A file with undecodable JSON or a
non-object top level still aborts, as the counterexample shows.) -/
theorem claim_C1_amended (parse : Parser) (dir : List FileEntry)
    (h : ∀ f ∈ dir, ∃ kvs, f.content = some (JsonVal.obj kvs)) :
    _normalize_dir parse dir = Except.ok
      ((sortFiles (globIssueFiles dir)).filterMap (fun f => outcomeSub (fileStep parse f)),
       (sortFiles (globIssueFiles dir)).countP (fun f => outcomeIsSkip (fileStep parse f)),
       (sortFiles (globIssueFiles dir)).countP (fun f => outcomeIsFail (fileStep parse f))) := by
  have hno : ∀ f ∈ sortFiles (globIssueFiles dir), ∀ m, fileStep parse f ≠ .err m := by
    intro f hf m
    obtain ⟨kvs, hkvs⟩ := h f (mem_globIssueFiles (mem_sortFiles.mp hf))
    exact fileStep_ne_err parse f kvs hkvs m
  rw [show _normalize_dir parse dir =
        normalizeFilesAux parse (sortFiles (globIssueFiles dir)) [] 0 0 from rfl,
      normalizeFilesAux_no_err parse _ [] 0 0 hno]
  simp

/-- C1 (witness): on a directory with one decodable file lacking an
`issue` object, the run completes with one skip and no failure. -/
theorem claim_C1_witness :
    _normalize_dir from_github_issue_payload c1wDir = Except.ok ([], 1, 0) := by
  have h := claim_C1_amended from_github_issue_payload c1wDir
    (fun f hf => by
      rw [show c1wDir = [⟨"issue_2.json", some (JsonVal.obj [])⟩] from rfl,
        List.mem_singleton] at hf
      exact ⟨[], by rw [hf]⟩)
  exact h.trans (by rfl)

/-- C2 (counterexample): filenames are written without zero padding, so
lexicographic filename order is not ascending issue number: on a
directory holding valid issues 5 and 10 the Normalizer emits issue 10
before issue 5, and [10, 5] is not sorted ascending. -/
theorem claim_C2_counterexample :
    (_normalize_dir from_github_issue_payload c2Dir).map
      (fun out => out.1.map Submission.issueNumber) = Except.ok [(10 : Int), 5] ∧
    ¬ List.Sorted (· ≤ ·) [(10 : Int), 5] := by
  constructor
  · rfl
  · intro h
    have := List.rel_of_sorted_cons h 5 (by simp)
    omega

/-- C2 (amended): the Submissions list is emitted in the lexicographic
order of the source file names (the processing order of
`sorted(in_dir.glob("issue_*.json"))`): the output is exactly the
in-order successes of the lexicographically sorted file list.  This
coincides with ascending issue number only while all filenames have the
same digit width. -/
theorem claim_C2_amended (dir : List FileEntry) (subs : List Submission) (sk fl : Nat)
    (h : _normalize_dir from_github_issue_payload dir = Except.ok (subs, sk, fl)) :
    subs = (sortFiles (globIssueFiles dir)).filterMap
      (fun f => outcomeSub (fileStep from_github_issue_payload f)) ∧
    (sortFiles (globIssueFiles dir)).Sorted fileLeR := by
  constructor
  · have := normalizeFilesAux_ok_inv from_github_issue_payload
      (sortFiles (globIssueFiles dir)) [] 0 0 subs sk fl h
    simpa using this
  · exact sortFiles_sorted (globIssueFiles dir)

/-- C2 (witness): on the 5/10 directory, the emitted list is the
in-order successes of the sorted file list, which is itself sorted
lexicographically. -/
theorem claim_C2_witness :
    c2Subs = (sortFiles (globIssueFiles c2Dir)).filterMap
      (fun f => outcomeSub (fileStep from_github_issue_payload f)) ∧
    (sortFiles (globIssueFiles c2Dir)).Sorted fileLeR :=
  claim_C2_amended c2Dir c2Subs 0 0 (by rfl)

/-- C5: for every well-formed raw item file processed by the Normalizer
(with any body parser): a marker-free string body counts a skip and not a
failure, and a gate-passing item whose body the parser rejects counts a
failure and not a skip; in both cases the loop continues with the
remaining files, so neither outcome aborts the batch, and both counters
flow into the returned triple. -/
theorem claim_C5 :
    (∀ (parse : Parser) (rest : List FileEntry) (subs : List Submission) (sk fl : Nat)
       (name : String) (raw issue : List (String × JsonVal)) (body : String),
       jLookup raw "issue" = some (JsonVal.obj issue) →
       jLookup issue "body" = some (JsonVal.str body) →
       containsMarker body = false →
       normalizeFilesAux parse (⟨name, some (JsonVal.obj raw)⟩ :: rest) subs sk fl =
         normalizeFilesAux parse rest subs (sk + 1) fl) ∧
    (∀ (parse : Parser) (rest : List FileEntry) (subs : List Submission) (sk fl : Nat)
       (name : String) (raw issue : List (String × JsonVal)) (body created_at : String)
       (number : Int),
       jLookup raw "issue" = some (JsonVal.obj issue) →
       jLookup issue "body" = some (JsonVal.str body) →
       containsMarker body = true →
       asPyInt (jLookup issue "number") = some number →
       jLookup issue "created_at" = some (JsonVal.str created_at) →
       parse number body created_at (closedAtOf issue) (_labels_from_issue issue) = none →
       normalizeFilesAux parse (⟨name, some (JsonVal.obj raw)⟩ :: rest) subs sk fl =
         normalizeFilesAux parse rest subs sk (fl + 1)) := by
  constructor
  · intro parse rest subs sk fl name raw issue body hi hb hm
    have hstep := fileStep_skip_of_no_marker parse ⟨name, some (JsonVal.obj raw)⟩
      raw issue body rfl hi hb hm
    simp [normalizeFilesAux, hstep]
  · intro parse rest subs sk fl name raw issue body created_at number hi hb hm hn hcr hp
    have hm' : containsMarker body = true := hm
    have hstep := fileStep_fail_of_parse_none parse ⟨name, some (JsonVal.obj raw)⟩
      raw issue body created_at number rfl hi hb hm' hn hcr hp
    simp [normalizeFilesAux, hstep]

/-- C5 (witness): a marker-free item counts exactly one skip; a
marker-bearing item with an unparseable created-at counts exactly one
failure; both runs return normally. -/
theorem claim_C5_witness :
    normalizeFilesAux from_github_issue_payload
      [⟨"issue_2.json", some (JsonVal.obj c5SkipRaw)⟩] [] 0 0 = Except.ok ([], 1, 0) ∧
    normalizeFilesAux from_github_issue_payload
      [⟨"issue_4.json", some (JsonVal.obj c5FailRaw)⟩] [] 0 0 = Except.ok ([], 0, 1) := by
  constructor
  · exact (claim_C5.1 from_github_issue_payload [] [] 0 0 "issue_2.json" c5SkipRaw
      c5SkipIssue "a housekeeping issue" (by rfl) (by rfl) (by rfl)).trans (by rfl)
  · exact (claim_C5.2 from_github_issue_payload [] [] 0 0 "issue_4.json" c5FailRaw
      c5FailIssue okBody "not-a-timestamp" 4 (by rfl) (by rfl) (by rfl) (by rfl) (by rfl)
      (by rfl)).trans (by rfl)

theorem fetch_slept_eq (first retry : HttpResponse) (now : Int) :
    (fetch_issues_page first retry now).slept =
      if first.status = 403 then sleep_until_reset first now else none := by
  simp only [fetch_issues_page]
  by_cases h : (if first.status = 403 then retry else first).status ≠ 200
  · rw [if_pos h]
  · rw [if_neg h]
    cases (if first.status = 403 then retry else first).jsonList <;> rfl

theorem fetch_retried_eq (first retry : HttpResponse) (now : Int) :
    (fetch_issues_page first retry now).retried = (first.status == 403) := by
  simp only [fetch_issues_page]
  by_cases h : (if first.status = 403 then retry else first).status ≠ 200
  · rw [if_pos h]
  · rw [if_neg h]
    cases (if first.status = 403 then retry else first).jsonList <;> rfl

/-- C3 (amended): the Collector sleeps if and only if the 403 carries a
zero-remaining quota header and a reset timestamp (sleeping until the
reset plus a 5-second margin), but it retries the same page exactly once
on every 403 — rate-limited or not — failing hard if the retry is not
200, with the retry's status and first-500-character body; a non-403
non-2xx first response is immediately fatal with no sleep and no retry,
carrying its status and truncated body. -/
theorem claim_C3 (first retry : HttpResponse) (now : Int) :
    ((fetch_issues_page first retry now).slept ≠ none ↔
      first.status = 403 ∧ first.rlRemaining = some "0" ∧ first.rlReset ≠ none) ∧
    (∀ resetTs : Int, first.status = 403 → first.rlRemaining = some "0" →
      first.rlReset = some resetTs →
      (fetch_issues_page first retry now).slept = some (max 0 (resetTs - now) + 5)) ∧
    ((fetch_issues_page first retry now).retried = true ↔ first.status = 403) ∧
    (first.status = 403 → retry.status ≠ 200 →
      (fetch_issues_page first retry now).result =
        Except.error (.api retry.status (strTrunc retry.body 500))) ∧
    (∀ items, first.status = 403 → retry.status = 200 → retry.jsonList = some items →
      (fetch_issues_page first retry now).result = Except.ok items) ∧
    (first.status ≠ 403 → first.status ≠ 200 →
      fetch_issues_page first retry now =
        ⟨Except.error (.api first.status (strTrunc first.body 500)), none, false⟩) := by
  refine ⟨?_, ?_, ?_, ?_, ?_, ?_⟩
  · rw [fetch_slept_eq]
    by_cases h403 : first.status = 403
    · rw [if_pos h403]
      cases hr : first.rlReset with
      | none => simp [sleep_until_reset, hr, h403]
      | some resetTs =>
        by_cases hrem : first.rlRemaining = some "0"
        · simp [sleep_until_reset, hr, h403, hrem]
        · simp [sleep_until_reset, hr, h403, hrem]
    · simp [if_neg h403, h403]
  · intro resetTs h1 h2 h3
    rw [fetch_slept_eq, if_pos h1]
    simp [sleep_until_reset, h3, h1, h2]
  · rw [fetch_retried_eq]
    simp
  · intro h1 h2
    simp [fetch_issues_page, h1, h2]
  · intro items h1 h2 h3
    simp [fetch_issues_page, h1, h2, h3]
  · intro h1 h2
    simp [fetch_issues_page, h1, h2]

/-- C3 (counterexample): a 403 without rate-limit headers is not
immediately fatal as the claim requires for non-rate-limit non-2xx
responses: the code silently retries it (without sleeping) and succeeds
when the retry is a 200. -/
theorem claim_C3_counterexample :
    fetch_issues_page plain403 ok200 0 = ⟨Except.ok [], none, true⟩ := by
  rfl

/-- C3 (witness): a rate-limit 403 at reset epoch 100 observed at time 5
sleeps for `max 0 (100 - 5) + 5` seconds. -/
theorem claim_C3_witness :
    (fetch_issues_page rl403 ok200 5).slept = some (max 0 ((100 : Int) - 5) + 5) := by
  have h := claim_C3 rl403 ok200 5
  exact h.2.1 100 (by rfl) (by rfl) (by rfl)

/-- C4: idempotency of collection.  If a run with `overwrite = False`
from any starting directory terminates with final store `s₁` (and `k`
pages fetched), then a second run against the same paginated source from
`s₁` leaves the store byte-for-byte identical, performs zero writes, and
fetches the same pages; and every `write_issue_file` call for an
already-existing path returns `False` without writing. -/
theorem claim_C4 (pages : Nat → List JsonObject) (pp : Nat) (mp : Option Nat)
    (bot repo now₁ now₂ : String) (fuel : Nat) (s₀ : Store) (w₀ : Nat)
    (s₁ : Store) (w₁ k : Nat)
    (h : collectLoop pages pp mp bot repo now₁ false fuel 1 ⟨s₀, w₀⟩ = some (⟨s₁, w₁⟩, k)) :
    collectLoop pages pp mp bot repo now₂ false fuel 1 ⟨s₁, 0⟩ = some (⟨s₁, 0⟩, k) ∧
    (∀ (issue : JsonObject) (n : PyInt) (s : Store), issue_number issue = some n →
      hasKey s (fileNameFor n) = true →
      write_issue_file issue repo now₂ false s = (false, s)) :=
  ⟨collectLoop_replay pages pp mp bot repo fuel 1 now₁ s₀ w₀ s₁ w₁ k h now₂ 0,
   fun issue n s hn hk => write_issue_file_existing issue repo now₂ s n hn hk⟩

/-- C4 (witness): collecting the one-page source twice with
`overwrite = False`: the second run returns the first run's store
unchanged with zero writes. -/
theorem claim_C4_witness :
    collectLoop onePagePages 2 none "editorialbot" "openjournals/joss-reviews" "t2" false
      3 1 ⟨oneIssueStore, 0⟩ = some (⟨oneIssueStore, 0⟩, 1) :=
  (claim_C4 onePagePages 2 none "editorialbot" "openjournals/joss-reviews" "t1" "t2"
    3 [] 0 oneIssueStore 1 1 (by rfl)).1

/-- C6: pagination termination.  (1) Against the standard paginated view
of a fixed item list whose final page is short (the total is not a
multiple of the page size), the loop fetches exactly
`total / pageSize + 1 = ceil(total / pageSize)` pages.  (2) The loop
stops right after any page shorter than the page size.  (3) With a full
page it stops exactly when the max-pages ceiling is reached.  (4) The
number of pages fetched never depends on the author filter (nor on the
store), so a page with zero matching items does not terminate the loop. -/
theorem claim_C6 :
    (∀ (items : List JsonObject) (pp : Nat) (bot repo now : String) (ow : Bool)
       (st : CollectState) (fuel : Nat), 0 < pp → 0 < items.length % pp →
       items.length / pp + 1 ≤ fuel →
       (∃ stF, collectLoop (chunkPages items pp) pp none bot repo now ow fuel 1 st =
          some (stF, items.length / pp + 1)) ∧
       items.length / pp + 1 = (items.length + pp - 1) / pp) ∧
    (∀ (pages : Nat → List JsonObject) (pp : Nat) (mp : Option Nat) (bot repo now : String)
       (ow : Bool) (fuel page : Nat) (st : CollectState),
       (pages page).length < pp → 0 < fuel →
       ∃ st', collectLoop pages pp mp bot repo now ow fuel page st = some (st', 1)) ∧
    (∀ (pages : Nat → List JsonObject) (pp : Nat) (mp : Option Nat) (bot repo now : String)
       (ow : Bool) (fuel page : Nat) (st : CollectState),
       (pages page).length = pp → 0 < pp → pageCeiling mp page = true → 0 < fuel →
       ∃ st', collectLoop pages pp mp bot repo now ow fuel page st = some (st', 1)) ∧
    (∀ (pages : Nat → List JsonObject) (pp : Nat) (mp : Option Nat) (fuel page : Nat)
       (bot₁ repo₁ now₁ : String) (ow₁ : Bool) (st₁ : CollectState)
       (bot₂ repo₂ now₂ : String) (ow₂ : Bool) (st₂ : CollectState),
       (collectLoop pages pp mp bot₁ repo₁ now₁ ow₁ fuel page st₁).map Prod.snd =
         (collectLoop pages pp mp bot₂ repo₂ now₂ ow₂ fuel page st₂).map Prod.snd) := by
  refine ⟨?_, ?_, ?_, ?_⟩
  · intro items pp bot repo now ow st fuel hpp hmod hfuel
    constructor
    · refine collectLoop_chunk_count items pp bot repo now ow hpp (items.length / pp) 1 st fuel
        le_rfl ?_ ?_ hfuel
      · simp
      · simpa using hmod
    · exact ceil_div_eq items.length pp hpp hmod
  · intro pages pp mp bot repo now ow fuel page st hshort hfuel
    exact collectLoop_short_stop pages pp mp bot repo now ow fuel page st hshort hfuel
  · intro pages pp mp bot repo now ow fuel page st hfull hpp hceil hfuel
    exact collectLoop_ceiling_stop pages pp mp bot repo now ow fuel page st hfull hpp hceil hfuel
  · intro pages pp mp fuel page bot₁ repo₁ now₁ ow₁ st₁ bot₂ repo₂ now₂ ow₂ st₂
    exact collectLoop_count_filter_independent pages pp mp fuel page
      bot₁ repo₁ now₁ ow₁ st₁ bot₂ repo₂ now₂ ow₂ st₂

/-- C6 (witness): three items at page size 2 (one full page plus a short
one) are fetched in exactly `3 / 2 + 1 = 2` pages. -/
theorem claim_C6_witness :
    ∃ stF, collectLoop (chunkPages c6Items 2) 2 none "editorialbot" "r" "t" false
      5 1 ⟨[], 0⟩ = some (stF, 2) :=
  (claim_C6.1 c6Items 2 "editorialbot" "r" "t" false ⟨[], 0⟩ 5
    (by decide) (by decide) (by decide)).1

/-- C7 (counterexample): Python's `isinstance(number, int)` admits JSON
booleans and the f-string renders them as `True`/`False`: a remote page
holding issues with `number = true` and `number = 1` makes the Collector
persist two raw items, `issue_True.json` and `issue_1.json`, whose issue
numbers are equal as Python integers (`True == 1`); normalizing the
resulting directory emits two Submissions sharing `issueNumber` 1. -/
theorem claim_C7_counterexample :
    collectLoop boolIntPages 100 none "editorialbot" "openjournals/joss-reviews" "t1" false
      3 1 ⟨[], 0⟩ = some (⟨boolIntStore, 2⟩, 1) ∧
    boolIntStore.map (fun e => (issue_number e.2.issue).map PyInt.toInt) =
      [some 1, some 1] ∧
    (_normalize_dir from_github_issue_payload boolIntDir).map
      (fun out => out.1.map Submission.issueNumber) = Except.ok [(1 : Int), 1] := by
  refine ⟨by rfl, by rfl, by rfl⟩

/-- C7 (amended): the store's identity key is the rendered filename, and
distinct typed numbers never collide on it (`fileNameFor` is injective:
`issue_True.json` and `issue_1.json` are distinct files).  From any
well-formed store, any Collector run — with or without overwrite — leaves
a well-formed store in which no two persisted raw items share an issue
number as a typed Python value; sharing the integer value across types
(True vs 1) remains possible, as the counterexample shows.  For every
Normalizer run over a collector-keyed directory whose numbers are all
genuine (non-bool) ints, no two emitted Submissions share an
`issueNumber`. -/
theorem claim_C7_amended :
    (∀ p q : PyInt, fileNameFor p = fileNameFor q → p = q) ∧
    (∀ (pages : Nat → List JsonObject) (pp : Nat) (mp : Option Nat) (bot repo now : String)
       (ow : Bool) (fuel page : Nat) (st : CollectState) (res : CollectState × Nat),
       storeWF st.store →
       collectLoop pages pp mp bot repo now ow fuel page st = some res →
       storeWF res.1.store ∧
       res.1.store.Pairwise (fun e₁ e₂ => ∀ p₁ p₂ : PyInt,
         issue_number e₁.2.issue = some p₁ → issue_number e₂.2.issue = some p₂ →
         p₁ ≠ p₂)) ∧
    (∀ (dir : List FileEntry) (subs : List Submission) (sk fl : Nat),
       dirWF dir →
       (∀ f ∈ dir, ∀ p, fileContentNumber f = some p → ∃ n : Int, p = PyInt.int n) →
       _normalize_dir from_github_issue_payload dir = Except.ok (subs, sk, fl) →
       (subs.map Submission.issueNumber).Nodup) := by
  refine ⟨fileNameFor_inj, ?_, ?_⟩
  · intro pages pp mp bot repo now ow fuel page st res hwf h
    have hwf' := collectLoop_WF pages pp mp bot repo now ow fuel page st res hwf h
    exact ⟨hwf', storeWF_numbers res.1.store hwf'⟩
  · intro dir subs sk fl hwf hint h
    have hsubs := normalizeFilesAux_ok_inv from_github_issue_payload
      (sortFiles (globIssueFiles dir)) [] 0 0 subs sk fl h
    have hnames : ((sortFiles (globIssueFiles dir)).map FileEntry.name).Nodup := by
      have h₁ : ((globIssueFiles dir).map FileEntry.name).Sublist
          (dir.map FileEntry.name) :=
        (List.filter_sublist dir).map FileEntry.name
      have h₂ : ((globIssueFiles dir).map FileEntry.name).Nodup := hwf.1.sublist h₁
      have h₃ : List.Perm ((sortFiles (globIssueFiles dir)).map FileEntry.name)
          ((globIssueFiles dir).map FileEntry.name) :=
        (sortFiles_perm (globIssueFiles dir)).map FileEntry.name
      exact h₃.nodup_iff.mpr h₂
    have hprop : ∀ f ∈ sortFiles (globIssueFiles dir), ∀ sub,
        outcomeSub (fileStep from_github_issue_payload f) = some sub →
        ∃ n : Int, f.name = fileNameFor (PyInt.int n) ∧ sub.issueNumber = n := by
      intro f hf sub ho
      have hok := outcomeSub_eq_some _ sub ho
      obtain ⟨p, hp, hpt⟩ := fileStep_ok_number f sub hok
      have hfdir : f ∈ dir := mem_globIssueFiles (mem_sortFiles.mp hf)
      obtain ⟨n, hn⟩ := hint f hfdir p hp
      refine ⟨n, ?_, ?_⟩
      · rw [← hn]
        exact hwf.2 f hfdir p hp
      · rw [hpt, hn]
        rfl
    rw [hsubs]
    simpa using nodup_output_numbers (sortFiles (globIssueFiles dir)) hnames hprop

/-- C7 (witness): a collection run from the empty store yields a
well-formed store with pairwise-distinct typed issue numbers, and
normalizing a correctly keyed one-file directory with a genuine integer
number yields distinct `issueNumber`s. -/
theorem claim_C7_witness :
    (storeWF (⟨oneIssueStore, 1⟩ : CollectState).store ∧
      (⟨oneIssueStore, 1⟩ : CollectState).store.Pairwise (fun e₁ e₂ => ∀ p₁ p₂ : PyInt,
        issue_number e₁.2.issue = some p₁ → issue_number e₂.2.issue = some p₂ →
        p₁ ≠ p₂)) ∧
    ([reviewSub 7].map Submission.issueNumber).Nodup := by
  constructor
  · exact claim_C7_amended.2.1 onePagePages 2 none "editorialbot"
      "openjournals/joss-reviews" "t1" false 3 1 ⟨[], 0⟩ (⟨oneIssueStore, 1⟩, 1)
      ⟨List.nodup_nil, by simp⟩ (by rfl)
  · refine claim_C7_amended.2.2 c7Dir [reviewSub 7] 0 0
      ⟨by simp [c7Dir, reviewFile], ?_⟩ ?_ (by rfl)
    · intro f hf p hp
      rw [show c7Dir = [reviewFile "issue_7.json" 7] from rfl, List.mem_singleton] at hf
      rw [hf] at hp
      have h7 : fileContentNumber (reviewFile "issue_7.json" 7) = some (PyInt.int 7) := by
        rfl
      rw [h7, Option.some.injEq] at hp
      rw [hf, ← hp]
      rfl
    · intro f hf p hp
      rw [show c7Dir = [reviewFile "issue_7.json" 7] from rfl, List.mem_singleton] at hf
      rw [hf] at hp
      have h7 : fileContentNumber (reviewFile "issue_7.json" 7) = some (PyInt.int 7) := by
        rfl
      rw [h7, Option.some.injEq] at hp
      exact ⟨7, hp.symm⟩

/-- C8: year bucketing.  The UTC instant 2021-12-31T23:59:59Z (UNIX
second 1640995199) buckets to year 2021; a record whose closed timestamp
equals the absent sentinel 0 contributes nothing to the closed bucketing;
a record with an integer opened timestamp always contributes its UTC year
to the opened bucketing. -/
theorem claim_C8 :
    _unix_to_year 1640995199 = 2021 ∧
    (∀ (pre post : List JsonObject) (r : JsonObject),
      jLookup r "Closed" = some (JsonVal.int 0) →
      _count_years (pre ++ r :: post) "Closed" true =
        _count_years (pre ++ post) "Closed" true) ∧
    (∀ (pre post : List JsonObject) (r : JsonObject) (ts : Int),
      asPyInt (jLookup r "Opened") = some ts →
      _count_years (pre ++ r :: post) "Opened" false =
        _count_years pre "Opened" false ++
          _unix_to_year ts :: _count_years post "Opened" false) := by
  refine ⟨by decide, ?_, ?_⟩
  · intro pre post r hr
    simp [_count_years, List.filterMap_append, List.filterMap_cons, hr, asPyInt]
  · intro pre post r ts hts
    simp [_count_years, List.filterMap_append, List.filterMap_cons, hts]

/-- C8 (witness): the sentinel-0 closed record is excluded from the
closed bucketing; the opened record at 2021-12-31T23:59:59Z is counted in
year 2021. -/
theorem claim_C8_witness :
    _count_years ([] ++ c8Closed0 :: []) "Closed" true =
      _count_years ([] ++ ([] : List JsonObject)) "Closed" true ∧
    _count_years ([] ++ c8Opened :: []) "Opened" false =
      _count_years [] "Opened" false ++
        _unix_to_year 1640995199 :: _count_years [] "Opened" false :=
  ⟨claim_C8.2.1 [] [] c8Closed0 (by rfl),
   claim_C8.2.2 [] [] c8Opened 1640995199 (by rfl)⟩

/-- C9 (counterexample): the claim says an empty bucket set must not
prevent the other output; but with closed data present and the opened
bucket empty, the run aborts at `min(opened_counts.keys())` before
producing any chart — the closed chart, which has data, is never
written. -/
theorem claim_C9_counterexample :
    analysisMain c9Subs = Except.error "ValueError: min() arg is an empty sequence" ∧
    _count_years c9Subs "Closed" true = [2021] := by
  constructor
  · rfl
  · rfl

/-- C9 (amended): an empty opened bucket is fatal before either chart is
produced (even when the closed bucket has data); an empty closed bucket
is not a failure at all — the closed chart is skipped with a warning and
the opened chart is still produced; with data in both buckets both charts
are produced. -/
theorem claim_C9_amended (subs : List JsonObject) :
    (_count_years subs "Opened" false = [] →
      analysisMain subs = Except.error "ValueError: min() arg is an empty sequence") ∧
    (_count_years subs "Opened" false ≠ [] → _count_years subs "Closed" true = [] →
      analysisMain subs = Except.ok ["open_issues_per_year.png"]) ∧
    (_count_years subs "Opened" false ≠ [] → _count_years subs "Closed" true ≠ [] →
      analysisMain subs =
        Except.ok ["open_issues_per_year.png", "closed_issues_per_year.png"]) := by
  refine ⟨?_, ?_, ?_⟩
  · intro h
    simp [analysisMain, h]
  · intro h1 h2
    simp [analysisMain, _plot_counts, List.isEmpty_iff, h1, h2]
  · intro h1 h2
    simp [analysisMain, _plot_counts, List.isEmpty_iff, h1, h2]

/-- C9 (witness): with opened data and no closed data, the run succeeds
and produces exactly the opened chart. -/
theorem claim_C9_witness :
    analysisMain c9OkSubs = Except.ok ["open_issues_per_year.png"] :=
  (claim_C9_amended c9OkSubs).2.1 (by decide) (by rfl)

/-- C10: an issue object without an integer `number` field is never
persisted: `write_issue_file` returns `False` and leaves the directory
untouched, and the inner write loop over such an item leaves the whole
collection state (including the written counter) unchanged even when the
item matches the author filter. -/
theorem claim_C10 (issue : JsonObject) (repo now : String) (ow : Bool) (s : Store)
    (bot : String) (st : CollectState) (h : issue_number issue = none) :
    write_issue_file issue repo now ow s = (false, s) ∧
    writePage [issue] bot repo now ow st = st := by
  constructor
  · exact write_issue_file_no_number issue repo now ow s h
  · cases st with
    | mk store written =>
      cases hb : opened_by_login issue bot with
      | true =>
        simp [writePage, List.filter, hb, wStep,
          write_issue_file_no_number issue repo now ow store h]
      | false =>
        simp [writePage, List.filter, hb]

/-- C10 (witness): a bot-authored issue with no `number` field is not
written and not counted, starting from the empty store. -/
theorem claim_C10_witness :
    write_issue_file c10Issue "openjournals/joss-reviews" "t1" false [] = (false, []) ∧
    writePage [c10Issue] "editorialbot" "openjournals/joss-reviews" "t1" false ⟨[], 0⟩ =
      ⟨[], 0⟩ :=
  claim_C10 c10Issue "openjournals/joss-reviews" "t1" false [] "editorialbot" ⟨[], 0⟩
    (by rfl)
